import Mathlib

/-!
# Vaccination slot availability client: embedding of `src/main.go`

The Go program is a straight-line command-line client: three HTTP GETs, three
`json.Unmarshal` calls, two interactive prompts and one table.  The embedding
below keeps the source's function names.  Everything the program obtains from
outside (HTTP bodies, the prompt answer, the clock, the map iteration order)
is a field of `Env`; every observable action the program performs is an
`Event`, and each function returns its Go result together with the events it
emitted.
-/

namespace Vaccination

/-! ## Data model (src/main.go:16-54) -/

/-- Go `json.Number`: a string type holding the literal text of a number. -/
abbrev Number := String

/-- Element type of `StatesResponse.States`. -/
structure State where
  StateID : Int
  StateName : String
  deriving DecidableEq, Repr

/-- Go `StatesResponse`. -/
structure StatesResponse where
  States : List State
  TTL : Int
  deriving DecidableEq, Repr

/-- Element type of `DistrictsResponse.Districts`. -/
structure District where
  DistrictID : Int
  DistrictName : String
  deriving DecidableEq, Repr

/-- Go `DistrictsResponse`. -/
structure DistrictsResponse where
  Districts : List District
  TTL : Int
  deriving DecidableEq, Repr

/-- Element type of `Centers[i].Sessions`. -/
structure Session where
  SessionID : String
  Date : String
  AvailableCapacity : Number
  MinAgeLimit : Number
  Vaccine : String
  Slots : List String
  deriving DecidableEq, Repr

/-- Element type of `SlotsResponse.Centers`. -/
structure Center where
  CenterID : Int
  Name : String
  StateName : String
  DistrictName : String
  BlockName : String
  Pincode : Number
  Lat : Int
  Long : Int
  From : String
  To : String
  FeeType : String
  Sessions : List Session
  deriving DecidableEq, Repr

/-- Go `SlotsResponse`. -/
structure SlotsResponse where
  Centers : List Center
  deriving DecidableEq, Repr

/-! ## Go `map[string]int`

A map is kept as an association list with pairwise distinct keys.  The nil
map and the empty map are both `[]`: the program only reads, ranges over and
takes `len` of a possibly nil map, and those behave alike on both. -/

/-- Go `map[string]int`. -/
abbrev GoMap := List (String × Int)

/-- Go `m[k] = v`: overwrite the entry for `k` if there is one, else add it. -/
def GoMap.set : GoMap → String → Int → GoMap
  | [], k, v => [(k, v)]
  | (k0, v0) :: rest, k, v =>
    if k0 = k then (k, v) :: rest else (k0, v0) :: GoMap.set rest k v

/-- Go `v, ok := m[k]`. -/
def GoMap.get? : GoMap → String → Option Int
  | [], _ => none
  | (k0, v0) :: rest, k => if k0 = k then some v0 else GoMap.get? rest k

/-- Go `m[k]`: the zero value `0` when the key is absent. -/
def GoMap.index (m : GoMap) (k : String) : Int :=
  (m.get? k).getD 0

/-- Go `len(m)`. -/
def GoMap.len (m : GoMap) : Nat := m.length

/-- The keys of a map, in the association list's order. -/
def GoMap.keys (m : GoMap) : List String := m.map Prod.fst

/-! ## Row construction (src/main.go:184-197) -/

/-- The two nested `for ... range` loops of `main` that fill `data`: every
iteration appends one seven-element row to the slice built so far. -/
def buildRows (centers : List Center) : List (List String) :=
  centers.foldl
    (fun data center =>
      center.Sessions.foldl
        (fun data session =>
          data ++ [[session.Date, center.Name, center.BlockName, center.Pincode,
                    session.Vaccine, session.MinAgeLimit, session.AvailableCapacity]])
        data)
    []

/-- The row the specification prescribes for a (center, session) pair:
Date, Center Name, Block Name, Pincode, Vaccine, Minimum Age Limit,
Available Capacity. -/
def specRow (c : Center) (s : Session) : List String :=
  [s.Date, c.Name, c.BlockName, c.Pincode, s.Vaccine, s.MinAgeLimit, s.AvailableCapacity]

/-- The table the specification prescribes: one row per (center, session)
pair, centers in response order and, within a center, sessions in response
order. -/
def specRows (centers : List Center) : List (List String) :=
  centers.flatMap (fun c => c.Sessions.map (specRow c))

/-! ## JSON values and `json.Unmarshal` at the three response types

`encoding/json` is the Go standard library.  Its scanner (text to values)
stays a parameter of the environment; what it does with a scanned value at a
given Go type is fixed by the struct declarations of src/main.go:16-54 (field
types and `json:"..."` tags) and by the library's decoding rules: `null`
leaves a non-pointer, non-slice target unchanged, sets a slice to nil and a
pointer to nil; an object key is matched to a field case-insensitively and
unknown keys are skipped; the members of an object are stored one after the
other into the value the target holds at that moment; a number literal stored
into a `json.Number` keeps its text; element i of an array is stored into
the element the slice's backing array holds at index i, a zero element only
if the backing array is shorter, and the slice is cut to the array's length
afterwards. -/

/-- A scanned JSON value.  A number carries its literal text. -/
inductive Json where
  | null
  | bool (b : Bool)
  | num (lit : String)
  | str (s : String)
  | arr (elems : List Json)
  | obj (members : List (String × Json))

/-- Case folding of one character of an object key: ASCII letters fold to
lower case, and the Kelvin sign and the long s fold with `k` and `s`. -/
def foldRune (c : Char) : Char :=
  if c = Char.ofNat 8490 then 'k' else if c = Char.ofNat 383 then 's' else c.toLower

/-- Whether object key `key` selects the struct field tagged `tag` (every tag
in src/main.go is lower-case ASCII, so folding the key is enough). -/
def keyIs (key tag : String) : Bool :=
  key.data.map foldRune = tag.data

/-- Go `strconv.ParseInt(lit, 10, 64)`, `none` on a syntax or range error. -/
def parseInt64 (lit : String) : Option Int :=
  let body : Bool × List Char :=
    match lit.data with
    | '-' :: t => (true, t)
    | '+' :: t => (false, t)
    | t => (false, t)
  if body.2 ≠ [] ∧ body.2.all Char.isDigit then
    let n : Nat := body.2.foldl (fun acc c => 10 * acc + (c.toNat - 48)) 0
    let v : Int := if body.1 then -(n : Int) else (n : Int)
    if -(2 : Int) ^ 63 ≤ v ∧ v < (2 : Int) ^ 63 then some v else none
  else none

/-- Go `isValidNumber` of encoding/json: the JSON number grammar. -/
def isValidNumber (s : String) : Bool :=
  let s0 : List Char := match s.data with
    | '-' :: t => t
    | t => t
  let afterInt : Option (List Char) := match s0 with
    | '0' :: t => some t
    | c :: t => if c.isDigit then some (t.dropWhile Char.isDigit) else none
    | [] => none
  match afterInt with
  | none => false
  | some s1 =>
    let s2 : List Char := match s1 with
      | '.' :: d :: t => if d.isDigit then t.dropWhile Char.isDigit else s1
      | _ => s1
    let s3 : Option (List Char) := match s2 with
      | e :: x :: t =>
        if e = 'e' ∨ e = 'E' then
          if x = '+' ∨ x = '-' then
            (if t = [] then none else some (t.dropWhile Char.isDigit))
          else some ((x :: t).dropWhile Char.isDigit)
        else some s2
      | _ => some s2
    match s3 with
    | none => false
    | some rest => rest = []

/-- The value of the last member of an object whose key selects the field
tagged `tag`, if any member does. -/
def lastMember (members : List (String × Json)) (tag : String) : Option Json :=
  (members.reverse.find? (fun kv => keyIs kv.1 tag)).map Prod.snd

/-- Storing a JSON value into a Go `string` that currently holds `cur`. -/
def storeString (cur : String) : Json → Except String String
  | .null => .ok cur
  | .str s => .ok s
  | _ => .error "json: cannot unmarshal into Go value of type string"

/-- Storing a JSON value into a Go `int` that currently holds `cur`. -/
def storeInt (cur : Int) : Json → Except String Int
  | .null => .ok cur
  | .num lit =>
    match parseInt64 lit with
    | some n => .ok n
    | none => .error "json: cannot unmarshal number into Go value of type int"
  | _ => .error "json: cannot unmarshal into Go value of type int"

/-- Storing a JSON value into a Go `json.Number` that currently holds `cur`:
a number literal is stored as its text, a string only if it spells a number. -/
def storeNumber (cur : Number) : Json → Except String Number
  | .null => .ok cur
  | .num lit => .ok lit
  | .str s =>
    if isValidNumber s then .ok s
    else .error "json: invalid number literal, trying to unmarshal into Number"
  | _ => .error "json: cannot unmarshal into Go value of type json.Number"

/-- A Go slice as the decoder finds it: `live` are its elements (the indexes
below `len`), `spare` the elements an earlier, longer array left behind them
in the backing array.  Capacity never written holds zero values and is not
recorded; the nil slice and the empty slice have both lists empty. -/
structure Slice (α : Type) where
  live : List α
  spare : List α

/-- The elements of a JSON array stored one by one into a backing array:
element i goes into the element held at index i, or into a zero element once
the backing array is used up. -/
def storeElems {α : Type} (zero : α) (elem : α → Json → Except String α) :
    List α → List Json → Except String (List α)
  | _, [] => .ok []
  | [], j :: js =>
    (elem zero j).bind (fun y => (storeElems zero elem [] js).map (fun ys => y :: ys))
  | b :: bs, j :: js =>
    (elem b j).bind (fun y => (storeElems zero elem bs js).map (fun ys => y :: ys))

/-- Storing a JSON value into a Go slice that currently is `cur`, given the
zero element and how a value is stored into an element: `null` gives the nil
slice, an empty array a new empty slice, and a non-empty array is stored
element by element into the backing array, after which the slice has the
array's length and the rest of the backing array stays behind it. -/
def storeSlice {α : Type} (zero : α) (elem : α → Json → Except String α) (cur : Slice α) :
    Json → Except String (Slice α)
  | .null => .ok ⟨[], []⟩
  | .arr [] => .ok ⟨[], []⟩
  | .arr (j :: js) =>
    (storeElems zero elem (cur.live ++ cur.spare) (j :: js)).map
      (fun ys => ⟨ys, (cur.live ++ cur.spare).drop (j :: js).length⟩)
  | _ => .error "json: cannot unmarshal into Go value of slice type"

/-- Storing a JSON value into a Go struct that currently holds `cur`, given
how one object member is stored into the struct. -/
def storeStruct {α : Type} (field : α → String → Json → Except String α) (cur : α) :
    Json → Except String α
  | .null => .ok cur
  | .obj members => members.foldlM (fun acc kv => field acc kv.1 kv.2) cur
  | _ => .error "json: cannot unmarshal into Go value of struct type"

/-- A `StatesResponse` while it is decoded: its slice with the backing array. -/
structure StatesResponseMem where
  States : Slice State
  TTL : Int

/-- A `DistrictsResponse` while it is decoded. -/
structure DistrictsResponseMem where
  Districts : Slice District
  TTL : Int

/-- A `Sessions` element while it is decoded. -/
structure SessionMem where
  SessionID : String
  Date : String
  AvailableCapacity : Number
  MinAgeLimit : Number
  Vaccine : String
  Slots : Slice String

/-- A `Centers` element while it is decoded. -/
structure CenterMem where
  CenterID : Int
  Name : String
  StateName : String
  DistrictName : String
  BlockName : String
  Pincode : Number
  Lat : Int
  Long : Int
  From : String
  To : String
  FeeType : String
  Sessions : Slice SessionMem

/-- A `SlotsResponse` while it is decoded. -/
structure SlotsResponseMem where
  Centers : Slice CenterMem

/-- What the program can read of a decoded `StatesResponse`: it ranges over
slices and takes their length, so only the elements below `len` count. -/
def StatesResponseMem.toStatesResponse (m : StatesResponseMem) : StatesResponse :=
  ⟨m.States.live, m.TTL⟩

/-- What the program can read of a decoded `DistrictsResponse`. -/
def DistrictsResponseMem.toDistrictsResponse (m : DistrictsResponseMem) : DistrictsResponse :=
  ⟨m.Districts.live, m.TTL⟩

/-- What the program can read of a decoded `Sessions` element. -/
def SessionMem.toSession (m : SessionMem) : Session :=
  ⟨m.SessionID, m.Date, m.AvailableCapacity, m.MinAgeLimit, m.Vaccine, m.Slots.live⟩

/-- What the program can read of a decoded `Centers` element. -/
def CenterMem.toCenter (m : CenterMem) : Center :=
  ⟨m.CenterID, m.Name, m.StateName, m.DistrictName, m.BlockName, m.Pincode, m.Lat, m.Long,
    m.From, m.To, m.FeeType, m.Sessions.live.map SessionMem.toSession⟩

/-- What the program can read of a decoded `SlotsResponse`. -/
def SlotsResponseMem.toSlotsResponse (m : SlotsResponseMem) : SlotsResponse :=
  ⟨m.Centers.live.map CenterMem.toCenter⟩

/-- One object member stored into a `States` element (src/main.go:17-20). -/
def stateField (st : State) (key : String) (v : Json) : Except String State :=
  if keyIs key "state_id" then (storeInt st.StateID v).map (fun x => { st with StateID := x })
  else if keyIs key "state_name" then
    (storeString st.StateName v).map (fun x => { st with StateName := x })
  else .ok st

/-- One object member stored into a `StatesResponse` (src/main.go:16-22). -/
def statesResponseField (r : StatesResponseMem) (key : String) (v : Json) :
    Except String StatesResponseMem :=
  if keyIs key "states" then
    (storeSlice ⟨0, ""⟩ (storeStruct stateField) r.States v).map
      (fun x => { r with States := x })
  else if keyIs key "ttl" then (storeInt r.TTL v).map (fun x => { r with TTL := x })
  else .ok r

/-- One object member stored into a `Districts` element (src/main.go:25-28). -/
def districtField (d : District) (key : String) (v : Json) : Except String District :=
  if keyIs key "district_id" then
    (storeInt d.DistrictID v).map (fun x => { d with DistrictID := x })
  else if keyIs key "district_name" then
    (storeString d.DistrictName v).map (fun x => { d with DistrictName := x })
  else .ok d

/-- One object member stored into a `DistrictsResponse` (src/main.go:24-30). -/
def districtsResponseField (r : DistrictsResponseMem) (key : String) (v : Json) :
    Except String DistrictsResponseMem :=
  if keyIs key "districts" then
    (storeSlice ⟨0, ""⟩ (storeStruct districtField) r.Districts v).map
      (fun x => { r with Districts := x })
  else if keyIs key "ttl" then (storeInt r.TTL v).map (fun x => { r with TTL := x })
  else .ok r

/-- The zero `Sessions` element. -/
def zeroSession : SessionMem := ⟨"", "", "", "", "", ⟨[], []⟩⟩

/-- The zero `Centers` element. -/
def zeroCenter : CenterMem := ⟨0, "", "", "", "", "", 0, 0, "", "", "", ⟨[], []⟩⟩

/-- One object member stored into a `Sessions` element (src/main.go:45-52). -/
def sessionField (s : SessionMem) (key : String) (v : Json) : Except String SessionMem :=
  if keyIs key "session_id" then
    (storeString s.SessionID v).map (fun x => { s with SessionID := x })
  else if keyIs key "date" then (storeString s.Date v).map (fun x => { s with Date := x })
  else if keyIs key "available_capacity" then
    (storeNumber s.AvailableCapacity v).map (fun x => { s with AvailableCapacity := x })
  else if keyIs key "min_age_limit" then
    (storeNumber s.MinAgeLimit v).map (fun x => { s with MinAgeLimit := x })
  else if keyIs key "vaccine" then
    (storeString s.Vaccine v).map (fun x => { s with Vaccine := x })
  else if keyIs key "slots" then
    (storeSlice "" storeString s.Slots v).map (fun x => { s with Slots := x })
  else .ok s

/-- One object member stored into a `Centers` element (src/main.go:33-53). -/
def centerField (c : CenterMem) (key : String) (v : Json) : Except String CenterMem :=
  if keyIs key "center_id" then (storeInt c.CenterID v).map (fun x => { c with CenterID := x })
  else if keyIs key "name" then (storeString c.Name v).map (fun x => { c with Name := x })
  else if keyIs key "state_name" then
    (storeString c.StateName v).map (fun x => { c with StateName := x })
  else if keyIs key "district_name" then
    (storeString c.DistrictName v).map (fun x => { c with DistrictName := x })
  else if keyIs key "block_name" then
    (storeString c.BlockName v).map (fun x => { c with BlockName := x })
  else if keyIs key "pincode" then
    (storeNumber c.Pincode v).map (fun x => { c with Pincode := x })
  else if keyIs key "lat" then (storeInt c.Lat v).map (fun x => { c with Lat := x })
  else if keyIs key "long" then (storeInt c.Long v).map (fun x => { c with Long := x })
  else if keyIs key "from" then (storeString c.From v).map (fun x => { c with From := x })
  else if keyIs key "to" then (storeString c.To v).map (fun x => { c with To := x })
  else if keyIs key "fee_type" then
    (storeString c.FeeType v).map (fun x => { c with FeeType := x })
  else if keyIs key "sessions" then
    (storeSlice zeroSession (storeStruct sessionField) c.Sessions v).map
      (fun x => { c with Sessions := x })
  else .ok c

/-- One object member stored into a `SlotsResponse` (src/main.go:32-54). -/
def slotsResponseField (r : SlotsResponseMem) (key : String) (v : Json) :
    Except String SlotsResponseMem :=
  if keyIs key "centers" then
    (storeSlice zeroCenter (storeStruct centerField) r.Centers v).map
      (fun x => { r with Centers := x })
  else .ok r

/-- A scanned value stored through `&r` with `r` a `StatesResponse`. -/
def decodeStatesResponse (r : StatesResponseMem) (j : Json) : Except String StatesResponseMem :=
  storeStruct statesResponseField r j

/-- A scanned value stored through `&r` with `r` a `DistrictsResponse`. -/
def decodeDistrictsResponse (r : DistrictsResponseMem) (j : Json) :
    Except String DistrictsResponseMem :=
  storeStruct districtsResponseField r j

/-- A scanned value stored through `&s` with `s` a `*SlotsResponse`: `null`
sets the pointer to nil; otherwise a nil pointer is pointed at a new zero
struct and the value is stored there. -/
def decodeSlotsPointer (s : Option SlotsResponseMem) :
    Json → Except String (Option SlotsResponseMem)
  | .null => .ok none
  | j => (storeStruct slotsResponseField (s.getD ⟨⟨[], []⟩⟩) j).map some

/-- A session object decoded into a zero `Sessions` element, as the program
reads it. -/
def decodeSession (j : Json) : Except String Session :=
  (storeStruct sessionField zeroSession j).map SessionMem.toSession

/-! ## The outside world -/

/-- Everything the program obtains from outside.  An error value is kept as
the text its `Error()` method returns. -/
structure Env where
  /-- The outcome of `Request` on a URL (`http.NewRequest`, `client.Do` and
  `ioutil.ReadAll`): the body, or the first error of the three. -/
  httpGet : String → Except String String
  /-- The scanner of encoding/json: the value a body spells, or a syntax error. -/
  scan : String → Except String Json
  /-- The text `time.Now().Format("02-01-2006")` yields. -/
  today : String
  /-- The order in which `for key := range data` visits the keys of a map;
  Go leaves it unspecified, so it is any arrangement of the keys. -/
  rangeOrder : (m : GoMap) → { l : List String // l.Perm m.keys }
  /-- The outcome of `promptui.Select.Run` for a label and a list of items:
  the chosen item, or an error (for instance on interrupt). -/
  selectRun : String → List String → Except String String

/-- An observable action of a run. -/
inductive Event where
  /-- `Request` was called on the URL. -/
  | request (url : String)
  /-- A `promptui.Select` with this label and these items was run. -/
  | select (label : String) (items : List String)
  /-- `log.Fatalf`: the message is written to the error stream and the
  process exits with status 1. -/
  | fatal (msg : String)
  /-- A run-time panic ended the process. -/
  | panic (msg : String)
  /-- `table.Render()` on a table with this header, these auto-merged column
  indexes, this row-line setting and these appended rows. -/
  | render (header : List String) (mergeColumns : List Nat) (rowLine : Bool)
      (rows : List (List String))
  deriving DecidableEq, Repr

/-- Whether an event is a rendered table. -/
def Event.isRender : Event → Bool
  | .render _ _ _ _ => true
  | _ => false

/-- Whether an event is a `log.Fatalf` exit. -/
def Event.isFatal : Event → Bool
  | .fatal _ => true
  | _ => false

/-! ## The functions of src/main.go -/

/-- Go `Request` (src/main.go:56-74). -/
def Request (env : Env) (reqUrl : String) : Except String String × List Event :=
  (env.httpGet reqUrl, [Event.request reqUrl])

/-- Go `json.Unmarshal(body, &r)` with `r` a zero `StatesResponse`; the
result is `r` as the program reads it afterwards. -/
def unmarshalStates (env : Env) (body : String) : Except String StatesResponse :=
  (env.scan body).bind
    (fun j => (decodeStatesResponse ⟨⟨[], []⟩, 0⟩ j).map StatesResponseMem.toStatesResponse)

/-- Go `json.Unmarshal(body, &r)` with `r` a zero `DistrictsResponse`; the
result is `r` as the program reads it afterwards. -/
def unmarshalDistricts (env : Env) (body : String) : Except String DistrictsResponse :=
  (env.scan body).bind
    (fun j =>
      (decodeDistrictsResponse ⟨⟨[], []⟩, 0⟩ j).map DistrictsResponseMem.toDistrictsResponse)

/-- Go `json.Unmarshal(body, &s)` with `s` a nil `*SlotsResponse`; the result
is `s` as the program reads it afterwards. -/
def unmarshalSlots (env : Env) (body : String) : Except String (Option SlotsResponse) :=
  (env.scan body).bind
    (fun j => (decodeSlotsPointer none j).map (Option.map SlotsResponseMem.toSlotsResponse))

/-- The loop of `GetStatesList` (src/main.go:88-91). -/
def statesMap (states : List State) : GoMap :=
  states.foldl (fun s v => s.set v.StateName v.StateID) []

/-- The loop of `GetDistricts` (src/main.go:106-109). -/
def districtsMap (districts : List District) : GoMap :=
  districts.foldl (fun s v => s.set v.DistrictName v.DistrictID) []

/-- Go `GetStatesList` (src/main.go:76-93). -/
def GetStatesList (env : Env) : Except String GoMap × List Event :=
  let reqUrl := "https://cdn-api.co-vin.in/api/v2/admin/location/states"
  let res := Request env reqUrl
  match res.1 with
  | .error err => (.error err, res.2)
  | .ok body =>
    match unmarshalStates env body with
    | .error err => (.error err, res.2)
    | .ok r => (.ok (statesMap r.States), res.2)

/-- Go `GetDistricts` (src/main.go:95-111); `%v` prints an `int` in decimal. -/
def GetDistricts (env : Env) (stateId : Int) : Except String GoMap × List Event :=
  let reqUrl :=
    "https://cdn-api.co-vin.in/api/v2/admin/location/districts/" ++ toString stateId
  let res := Request env reqUrl
  match res.1 with
  | .error err => (.error err, res.2)
  | .ok body =>
    match unmarshalDistricts env body with
    | .error err => (.error err, res.2)
    | .ok r => (.ok (districtsMap r.Districts), res.2)

/-- Go `GetSlots` (src/main.go:113-132).  The result is the pair the Go
function returns: `.error err` for `(nil, err)` and `.ok s` for `(s, nil)`,
with `none` the nil pointer. -/
def GetSlots (env : Env) (districId : Int) :
    Except String (Option SlotsResponse) × List Event :=
  let today := env.today
  let reqUrl :=
    "https://cdn-api.co-vin.in/api/v2/appointment/sessions/calendarByDistrict?district_id="
      ++ toString districId ++ "&date=" ++ today
  let res := Request env reqUrl
  match res.1 with
  | .error err => (.error err, res.2)
  | .ok body =>
    match unmarshalSlots env body with
    | .error err => (.error err, res.2)
    | .ok s => (.ok s, res.2)

/-- Go `prompt` (src/main.go:134-150). -/
def prompt (env : Env) (label : String) (data : GoMap) : Except String String × List Event :=
  let items := (env.rangeOrder data).val
  match env.selectRun label items with
  | .error err => (.error err, [Event.select label items])
  | .ok result => (.ok result, [Event.select label items])

/-- The map a caller holds after `m, _ := f()` where `f` returns
`(map[string]int, error)` and returns a nil map along with every error. -/
def mapOrNil : Except String GoMap → GoMap
  | .ok m => m
  | .error _ => []

/-- Go `main` (src/main.go:152-205): the events of a whole run, in order. -/
def main (env : Env) : List Event :=
  let r1 := GetStatesList env
  match r1.1 with
  | .error err => r1.2 ++ [Event.fatal ("Get States List Error: " ++ err)]
  | .ok states =>
    let r2 := prompt env "Select States" states
    match r2.1 with
    | .error err => r1.2 ++ r2.2 ++ [Event.fatal ("Prompt failed " ++ err)]
    | .ok s =>
      -- `err` is nil from here on until it is assigned again
      let err : Option String := none
      let stateId := states.index s
      -- `districts, _ := GetDistricts(stateId)`: the error is discarded, and
      -- on an error the map is nil
      let r3 := GetDistricts env stateId
      let districts : GoMap := mapOrNil r3.1
      match err with
      | some e => r1.2 ++ r2.2 ++ r3.2 ++ [Event.fatal ("Get States List Error: " ++ e)]
      | none =>
        let r4 := prompt env "Select Districts" districts
        match r4.1 with
        | .error err => r1.2 ++ r2.2 ++ r3.2 ++ r4.2 ++ [Event.fatal ("Prompt failed " ++ err)]
        | .ok r =>
          let districtId := districts.index r
          let r5 := GetSlots env districtId
          let pre := r1.2 ++ r2.2 ++ r3.2 ++ r4.2 ++ r5.2
          match r5.1 with
          | .error _ => pre ++ [Event.fatal "There's an error when listing slots"]
          | .ok none =>
            -- `slots.Centers` with `slots == nil`
            pre ++ [Event.panic
              "runtime error: invalid memory address or nil pointer dereference"]
          | .ok (some slots) =>
            if slots.Centers.length < 1 then
              pre ++ [Event.fatal "There are no vaccinations centers are available"]
            else
              let data := buildRows slots.Centers
              pre ++ [Event.render
                ["Date", "Name", "Block", "Pincode", "Vaccine", "AgeLimit", "AvailableCapacity"]
                [1] true data]

end Vaccination

namespace Vaccination

/-! ## A sample environment

One state, one district, and a slots payload with one center that has two
sessions, the second of which carries no `min_age_limit` and the first no
`available_capacity`. -/

/-- The scanned states payload
`{"states":[{"state_id":1,"state_name":"Kerala"}],"ttl":0}`. -/
def sampleStatesJson : Json :=
  .obj [("states", .arr [.obj [("state_id", .num "1"), ("state_name", .str "Kerala")]]),
        ("ttl", .num "0")]

/-- The scanned districts payload
`{"districts":[{"district_id":7,"district_name":"Idukki"}],"ttl":0}`. -/
def sampleDistrictsJson : Json :=
  .obj [("districts",
          .arr [.obj [("district_id", .num "7"), ("district_name", .str "Idukki")]]),
        ("ttl", .num "0")]

/-- The member list of the first session object of the sample slots payload. -/
def sampleSessionMembers : List (String × Json) :=
  [("session_id", .str "a1"), ("date", .str "01-05-2021"), ("min_age_limit", .num "18"),
   ("vaccine", .str "COVISHIELD"), ("slots", .arr [.str "09:00AM-11:00AM"])]

/-- The member list of the second session object of the sample slots payload. -/
def sampleSecondSessionMembers : List (String × Json) :=
  [("date", .str "02-05-2021"), ("available_capacity", .num "5.0"),
   ("min_age_limit", .num "45")]

/-- The member list of the center object of the sample slots payload. -/
def sampleCenterMembers : List (String × Json) :=
  [("center_id", .num "42"), ("name", .str "PHC Munnar"), ("block_name", .str "Devikulam"),
   ("pincode", .num "1234567890123456789012"), ("lat", .num "10"), ("long", .num "77"),
   ("fee_type", .str "Free"),
   ("sessions", .arr [.obj sampleSessionMembers, .obj sampleSecondSessionMembers])]

/-- The scanned sample slots payload. -/
def sampleSlotsJson : Json :=
  .obj [("centers", .arr [.obj sampleCenterMembers])]

/-- The environment serving the three sample payloads; the user picks the
first item offered and interrupts a prompt that offers none. -/
def sampleEnv : Env where
  httpGet := fun u =>
    if u = "https://cdn-api.co-vin.in/api/v2/admin/location/states" then .ok "S"
    else if u = "https://cdn-api.co-vin.in/api/v2/admin/location/districts/1" then .ok "D"
    else .ok "C"
  scan := fun b =>
    if b = "S" then .ok sampleStatesJson
    else if b = "D" then .ok sampleDistrictsJson
    else if b = "C" then .ok sampleSlotsJson
    else .error "invalid character"
  today := "01-05-2021"
  rangeOrder := fun m => ⟨m.keys, List.Perm.refl _⟩
  selectRun := fun _ items =>
    match items with
    | [] => .error "^C"
    | x :: _ => .ok x

/-- A states payload in which the name `Goa` occurs twice, decoded. -/
def repeatedStates : List State := [⟨1, "Goa"⟩, ⟨2, "Kerala"⟩, ⟨3, "Goa"⟩]

/-- A districts payload in which the name `Idukki` occurs twice, decoded. -/
def repeatedDistricts : List District := [⟨7, "Idukki"⟩, ⟨8, "Idukki"⟩]

/-- The sample environment with both location endpoints answering payloads
that repeat a name. -/
def repeatedNamesEnv : Env :=
  { sampleEnv with
    httpGet := fun u =>
      if u = "https://cdn-api.co-vin.in/api/v2/admin/location/states" then .ok "S"
      else .ok "D"
    scan := fun b =>
      if b = "S" then
        .ok (.obj [("states",
          .arr [.obj [("state_id", .num "1"), ("state_name", .str "Goa")],
                .obj [("state_id", .num "2"), ("state_name", .str "Kerala")],
                .obj [("state_id", .num "3"), ("state_name", .str "Goa")]])])
      else
        .ok (.obj [("districts",
          .arr [.obj [("district_id", .num "7"), ("district_name", .str "Idukki")],
                .obj [("district_id", .num "8"), ("district_name", .str "Idukki")]])]) }

/-- The sample environment with the districts endpoint unreachable. -/
def districtsDownEnv : Env :=
  { sampleEnv with
    httpGet := fun u =>
      if u = "https://cdn-api.co-vin.in/api/v2/admin/location/states" then .ok "S"
      else .error "dial tcp: connect: connection refused" }

/-- The sample environment with the slots endpoint answering the body `null`. -/
def nullSlotsEnv : Env :=
  { sampleEnv with
    httpGet := fun u =>
      if u = "https://cdn-api.co-vin.in/api/v2/admin/location/states" then .ok "S"
      else if u = "https://cdn-api.co-vin.in/api/v2/admin/location/districts/1" then .ok "D"
      else .ok "null"
    scan := fun b =>
      if b = "S" then .ok sampleStatesJson
      else if b = "D" then .ok sampleDistrictsJson
      else if b = "null" then .ok .null
      else .error "invalid character" }

/-- The member list of a center object in which the `sessions` key occurs
twice: `{"name":"PHC","sessions":[{"date":"d1","available_capacity":5,
"min_age_limit":18}],"sessions":[{"date":"d2"}]}`. -/
def repeatedSessionsCenterMembers : List (String × Json) :=
  [("name", .str "PHC"),
   ("sessions",
     .arr [.obj [("date", .str "d1"), ("available_capacity", .num "5"),
                 ("min_age_limit", .num "18")]]),
   ("sessions", .arr [.obj [("date", .str "d2")]])]

/-- The sample environment with the slots endpoint answering one center
whose object repeats the `sessions` key. -/
def repeatedSessionsEnv : Env :=
  { sampleEnv with
    scan := fun b =>
      if b = "S" then .ok sampleStatesJson
      else if b = "D" then .ok sampleDistrictsJson
      else .ok (.obj [("centers", .arr [.obj repeatedSessionsCenterMembers])]) }

/-- The slots payload of `repeatedSessionsEnv` as the program reads it after
decoding: the session of the second array stored into the element the first
array left. -/
def repeatedSessionsSlots : SlotsResponse :=
  ⟨[⟨0, "PHC", "", "", "", "", 0, 0, "", "", "", [⟨"", "d2", "5", "18", "", []⟩]⟩]⟩

/-- The first session of the sample payload, decoded. -/
def sampleSession1 : Session :=
  ⟨"a1", "01-05-2021", "", "18", "COVISHIELD", ["09:00AM-11:00AM"]⟩

/-- The second session of the sample payload, decoded. -/
def sampleSession2 : Session :=
  ⟨"", "02-05-2021", "5.0", "45", "", []⟩

/-- The center of the sample payload, decoded. -/
def sampleCenter : Center :=
  ⟨42, "PHC Munnar", "", "", "Devikulam", "1234567890123456789012", 10, 77, "", "", "Free",
    [sampleSession1, sampleSession2]⟩

/-- The sample slots payload, decoded. -/
def sampleSlots : SlotsResponse := ⟨[sampleCenter]⟩

/-- The sample environment with the slots endpoint answering `{"centers":[]}`. -/
def noCentersEnv : Env :=
  { sampleEnv with
    scan := fun b =>
      if b = "S" then .ok sampleStatesJson
      else if b = "D" then .ok sampleDistrictsJson
      else .ok (.obj [("centers", .arr [])]) }

end Vaccination

namespace Vaccination

/-! ## Row construction: the loops against the prescribed table -/

theorem inner_loop_eq (c : Center) (ss : List Session) (acc : List (List String)) :
    ss.foldl
        (fun data session =>
          data ++ [[session.Date, c.Name, c.BlockName, c.Pincode,
                    session.Vaccine, session.MinAgeLimit, session.AvailableCapacity]])
        acc
      = acc ++ ss.map (specRow c) := by
  induction ss generalizing acc with
  | nil => simp
  | cons s rest ih => simp [List.foldl_cons, ih, specRow]

theorem outer_loop_eq (cs : List Center) (acc : List (List String)) :
    cs.foldl
        (fun data center =>
          center.Sessions.foldl
            (fun data session =>
              data ++ [[session.Date, center.Name, center.BlockName, center.Pincode,
                        session.Vaccine, session.MinAgeLimit, session.AvailableCapacity]])
            data)
        acc
      = acc ++ specRows cs := by
  induction cs generalizing acc with
  | nil => simp [specRows]
  | cons c rest ih =>
    rw [List.foldl_cons, inner_loop_eq, ih]
    simp [specRows, List.flatMap_cons, List.append_assoc]

theorem buildRows_eq_specRows (cs : List Center) : buildRows cs = specRows cs := by
  simp [buildRows, outer_loop_eq]

theorem specRows_append (xs ys : List Center) :
    specRows (xs ++ ys) = specRows xs ++ specRows ys := by
  simp [specRows, List.flatMap_append]

theorem specRows_cons (c : Center) (cs : List Center) :
    specRows (c :: cs) = c.Sessions.map (specRow c) ++ specRows cs := by
  simp [specRows, List.flatMap_cons]

theorem specRows_length (cs : List Center) :
    (specRows cs).length = (cs.map (fun c => c.Sessions.length)).sum := by
  induction cs with
  | nil => simp [specRows]
  | cons c rest ih => simp [specRows_cons, ih]

/-! ## Maps built by the `range` loops -/

theorem GoMap.get?_set (m : GoMap) (k : String) (v : Int) (n : String) :
    (m.set k v).get? n = if k = n then some v else m.get? n := by
  induction m with
  | nil => simp [GoMap.set, GoMap.get?]
  | cons kv rest ih =>
    obtain ⟨k0, v0⟩ := kv
    by_cases h0 : k0 = k
    · subst h0
      by_cases hn : k0 = n <;> simp [GoMap.set, GoMap.get?, hn]
    · by_cases hn : k0 = n
      · subst hn
        simp [GoMap.set, GoMap.get?, h0, Ne.symm h0]
      · simp [GoMap.set, GoMap.get?, h0, hn, ih]

theorem GoMap.mem_keys_set (m : GoMap) (k : String) (v : Int) (n : String) :
    n ∈ (m.set k v).keys ↔ n = k ∨ n ∈ m.keys := by
  induction m with
  | nil => simp [GoMap.set, GoMap.keys]
  | cons kv rest ih =>
    obtain ⟨k0, v0⟩ := kv
    by_cases h0 : k0 = k
    · subst h0
      simp [GoMap.set, GoMap.keys]
    · simp only [GoMap.keys] at ih
      simp [GoMap.set, GoMap.keys, h0, ih]
      tauto

theorem GoMap.nodup_keys_set (m : GoMap) (k : String) (v : Int) (h : m.keys.Nodup) :
    (m.set k v).keys.Nodup := by
  induction m with
  | nil => simp [GoMap.set, GoMap.keys]
  | cons kv rest ih =>
    obtain ⟨k0, v0⟩ := kv
    have hk : k0 ∉ GoMap.keys rest ∧ (GoMap.keys rest).Nodup := by
      simpa [GoMap.keys] using h
    by_cases h0 : k0 = k
    · subst h0
      simpa [GoMap.set, GoMap.keys] using h
    · have hmem := GoMap.mem_keys_set rest k v k0
      have : (GoMap.keys (GoMap.set rest k v)).Nodup := ih hk.2
      simp only [GoMap.keys] at this hmem hk
      simp [GoMap.set, GoMap.keys, h0, this, hmem, hk.1]

/-- The loop `for _, v := range xs { s[name v] = id v }` started on `acc`. -/
theorem fold_set_get? {α : Type} (f : α → String) (g : α → Int) (l : List α) (acc : GoMap)
    (n : String) :
    (l.foldl (fun s v => GoMap.set s (f v) (g v)) acc).get? n
      = ((l.reverse.find? (fun e => f e = n)).map g).or (acc.get? n) := by
  induction l generalizing acc with
  | nil => simp
  | cons x xs ih =>
    rw [List.foldl_cons, ih, GoMap.get?_set]
    simp only [List.reverse_cons, List.find?_append]
    cases hfind : List.find? (fun e => decide (f e = n)) xs.reverse with
    | some e => simp
    | none =>
      by_cases hx : f x = n <;> simp [hx, List.find?]

theorem fold_set_mem_keys {α : Type} (f : α → String) (g : α → Int) (l : List α) (acc : GoMap)
    (n : String) :
    n ∈ (l.foldl (fun s v => GoMap.set s (f v) (g v)) acc).keys
      ↔ n ∈ acc.keys ∨ n ∈ l.map f := by
  induction l generalizing acc with
  | nil => simp
  | cons x xs ih =>
    rw [List.foldl_cons, ih, GoMap.mem_keys_set]
    simp only [List.map_cons, List.mem_cons]
    tauto

theorem fold_set_nodup_keys {α : Type} (f : α → String) (g : α → Int) (l : List α)
    (acc : GoMap) (h : acc.keys.Nodup) :
    (l.foldl (fun s v => GoMap.set s (f v) (g v)) acc).keys.Nodup := by
  induction l generalizing acc with
  | nil => simpa using h
  | cons x xs ih =>
    rw [List.foldl_cons]
    exact ih _ (GoMap.nodup_keys_set acc _ _ h)

theorem fold_set_len {α : Type} (f : α → String) (g : α → Int) (l : List α) :
    (l.foldl (fun s v => GoMap.set s (f v) (g v)) []).len = (l.map f).dedup.length := by
  have hnd := fold_set_nodup_keys f g l [] (by simp [GoMap.keys])
  have hperm : (l.foldl (fun s v => GoMap.set s (f v) (g v)) []).keys.Perm (l.map f).dedup := by
    rw [List.perm_ext_iff_of_nodup hnd (List.nodup_dedup _)]
    intro a
    rw [fold_set_mem_keys, List.mem_dedup]
    simp [GoMap.keys]
  have := hperm.length_eq
  simpa [GoMap.keys, GoMap.len] using this

theorem find?_reverse_of_nodup {α : Type} (f : α → String) (l : List α)
    (hnd : (l.map f).Nodup) (e : α) (he : e ∈ l) :
    l.reverse.find? (fun x => f x = f e) = some e := by
  induction l with
  | nil => simp at he
  | cons x xs ih =>
    have hx : f x ∉ xs.map f ∧ (xs.map f).Nodup := by simpa using hnd
    simp only [List.reverse_cons, List.find?_append]
    rcases List.mem_cons.mp he with rfl | hmem
    · have : List.find? (fun x => decide (f x = f e)) xs.reverse = none := by
        rw [List.find?_eq_none]
        intro y hy
        have hy2 : y ∈ xs := List.mem_reverse.mp hy
        intro hfy
        exact hx.1 (List.mem_map.mpr ⟨y, hy2, by simpa using hfy⟩)
      simp [this, List.find?]
    · rw [ih hx.2 hmem]
      simp
/-! ## The events of a run -/

theorem GetStatesList_events (env : Env) :
    (GetStatesList env).2
      = [Event.request "https://cdn-api.co-vin.in/api/v2/admin/location/states"] := by
  unfold GetStatesList
  simp only [Request]
  split
  · rfl
  · split <;> rfl

theorem GetDistricts_events (env : Env) (stateId : Int) :
    (GetDistricts env stateId).2
      = [Event.request
          ("https://cdn-api.co-vin.in/api/v2/admin/location/districts/" ++ toString stateId)] := by
  unfold GetDistricts
  simp only [Request]
  split
  · rfl
  · split <;> rfl

theorem GetSlots_events (env : Env) (districId : Int) :
    (GetSlots env districId).2
      = [Event.request
          ("https://cdn-api.co-vin.in/api/v2/appointment/sessions/calendarByDistrict?district_id="
            ++ toString districId ++ "&date=" ++ env.today)] := by
  unfold GetSlots
  simp only [Request]
  split
  · rfl
  · split <;> rfl

theorem prompt_events (env : Env) (label : String) (data : GoMap) :
    (prompt env label data).2 = [Event.select label (env.rangeOrder data).val] := by
  simp only [prompt]
  split <;> rfl

/-- The five events that precede the outcome of the slots stage. -/
theorem main_of_slots (env : Env) (states : GoMap) (s d : String)
    (h1 : (GetStatesList env).1 = .ok states)
    (h2 : (prompt env "Select States" states).1 = .ok s)
    (h4 : (prompt env "Select Districts"
            (mapOrNil (GetDistricts env (states.index s)).1)).1 = .ok d) :
    main env =
      [Event.request "https://cdn-api.co-vin.in/api/v2/admin/location/states",
       Event.select "Select States" (env.rangeOrder states).val,
       Event.request
          ("https://cdn-api.co-vin.in/api/v2/admin/location/districts/"
            ++ toString (states.index s)),
       Event.select "Select Districts"
          (env.rangeOrder (mapOrNil (GetDistricts env (states.index s)).1)).val,
       Event.request
          ("https://cdn-api.co-vin.in/api/v2/appointment/sessions/calendarByDistrict?district_id="
            ++ toString ((mapOrNil (GetDistricts env (states.index s)).1).index d)
            ++ "&date=" ++ env.today)]
      ++ (match (GetSlots env ((mapOrNil (GetDistricts env (states.index s)).1).index d)).1 with
          | .error _ => [Event.fatal "There's an error when listing slots"]
          | .ok none =>
            [Event.panic "runtime error: invalid memory address or nil pointer dereference"]
          | .ok (some slots) =>
            if slots.Centers.length < 1 then
              [Event.fatal "There are no vaccinations centers are available"]
            else
              [Event.render
                ["Date", "Name", "Block", "Pincode", "Vaccine", "AgeLimit", "AvailableCapacity"]
                [1] true (buildRows slots.Centers)]) := by
  unfold main
  simp only [h1, h2, h4, GetStatesList_events, GetDistricts_events, GetSlots_events,
    prompt_events]
  split <;> simp
  split <;> simp

/-! ## The table of a run (C1, C2, C5) -/

/-- C1: when a run decodes a slots response with a non-empty center list, the
run ends by rendering the `data` slice built by `main`, that slice has as many
rows as there are sessions in all centers together, and a center without
sessions contributes no row (the slice is the one built without that center). -/
theorem row_count_eq_total_sessions (env : Env) (states districts : GoMap) (s d : String)
    (slots : SlotsResponse)
    (h1 : (GetStatesList env).1 = .ok states)
    (h2 : (prompt env "Select States" states).1 = .ok s)
    (h3 : mapOrNil (GetDistricts env (states.index s)).1 = districts)
    (h4 : (prompt env "Select Districts" districts).1 = .ok d)
    (h5 : (GetSlots env (districts.index d)).1 = .ok (some slots))
    (hne : slots.Centers ≠ []) :
    (main env).getLast? = some (Event.render
        ["Date", "Name", "Block", "Pincode", "Vaccine", "AgeLimit", "AvailableCapacity"]
        [1] true (buildRows slots.Centers)) ∧
    (buildRows slots.Centers).length = (slots.Centers.map (fun c => c.Sessions.length)).sum ∧
    ∀ p c q, slots.Centers = p ++ c :: q → c.Sessions = [] →
      buildRows slots.Centers = buildRows (p ++ q) := by
  subst h3
  have hlen : ¬ slots.Centers.length < 1 := by
    cases hc : slots.Centers with
    | nil => exact absurd hc hne
    | cons c cs => simp
  refine ⟨?_, ?_, ?_⟩
  · rw [main_of_slots env states s d h1 h2 h4]
    simp only [h5, hlen, if_false]
    rfl
  · rw [buildRows_eq_specRows, specRows_length]
  · intro p c q hsplit hc
    rw [hsplit, buildRows_eq_specRows, buildRows_eq_specRows, specRows_append, specRows_cons,
      specRows_append, hc]
    simp

theorem row_count_eq_total_sessions_witness :
    (GetStatesList sampleEnv).1 = .ok [("Kerala", 1)] ∧
    (prompt sampleEnv "Select States" [("Kerala", 1)]).1 = .ok "Kerala" ∧
    mapOrNil (GetDistricts sampleEnv (GoMap.index [("Kerala", 1)] "Kerala")).1
      = [("Idukki", 7)] ∧
    (prompt sampleEnv "Select Districts" [("Idukki", 7)]).1 = .ok "Idukki" ∧
    (GetSlots sampleEnv (GoMap.index [("Idukki", 7)] "Idukki")).1 = .ok (some sampleSlots) ∧
    sampleSlots.Centers ≠ [] ∧
    (main sampleEnv).getLast? = some (Event.render
        ["Date", "Name", "Block", "Pincode", "Vaccine", "AgeLimit", "AvailableCapacity"]
        [1] true (buildRows sampleSlots.Centers)) ∧
    (buildRows sampleSlots.Centers).length
      = (sampleSlots.Centers.map (fun c => c.Sessions.length)).sum ∧
    ∀ p c q, sampleSlots.Centers = p ++ c :: q → c.Sessions = [] →
      buildRows sampleSlots.Centers = buildRows (p ++ q) :=
  ⟨by rfl, by rfl, by rfl, by rfl, by rfl, by decide,
    row_count_eq_total_sessions sampleEnv [("Kerala", 1)] [("Idukki", 7)] "Kerala" "Idukki"
      sampleSlots (by rfl) (by rfl) (by rfl) (by rfl) (by rfl) (by decide)⟩

/-- C2: the rows `main` builds from a decoded slots response are exactly the
(center, session) pairs in encounter order, each as the seven-element list
Date, Name, BlockName, Pincode, Vaccine, MinAgeLimit, AvailableCapacity; when
the center list is non-empty the run ends by rendering exactly these rows; and
the rows of any one center form one contiguous block, each of length seven
with that center's name in the second column. -/
theorem rows_are_pairs_in_order (env : Env) (states districts : GoMap) (s d : String)
    (slots : SlotsResponse)
    (h1 : (GetStatesList env).1 = .ok states)
    (h2 : (prompt env "Select States" states).1 = .ok s)
    (h3 : mapOrNil (GetDistricts env (states.index s)).1 = districts)
    (h4 : (prompt env "Select Districts" districts).1 = .ok d)
    (h5 : (GetSlots env (districts.index d)).1 = .ok (some slots)) :
    buildRows slots.Centers
      = slots.Centers.flatMap (fun c => c.Sessions.map (fun ss =>
          [ss.Date, c.Name, c.BlockName, c.Pincode, ss.Vaccine, ss.MinAgeLimit,
           ss.AvailableCapacity])) ∧
    buildRows slots.Centers = specRows slots.Centers ∧
    (slots.Centers ≠ [] →
      (main env).getLast? = some (Event.render
        ["Date", "Name", "Block", "Pincode", "Vaccine", "AgeLimit", "AvailableCapacity"]
        [1] true (specRows slots.Centers))) ∧
    ∀ p c q, slots.Centers = p ++ c :: q →
      buildRows slots.Centers = buildRows p ++ c.Sessions.map (specRow c) ++ buildRows q ∧
      (c.Sessions.map (specRow c)).length = c.Sessions.length ∧
      ∀ row ∈ c.Sessions.map (specRow c), row.length = 7 ∧ row[1]? = some c.Name := by
  subst h3
  refine ⟨?_, buildRows_eq_specRows _, ?_, ?_⟩
  · rw [buildRows_eq_specRows]
    rfl
  · intro hne
    have hlen : ¬ slots.Centers.length < 1 := by
      cases hc : slots.Centers with
      | nil => exact absurd hc hne
      | cons c cs => simp
    rw [main_of_slots env states s d h1 h2 h4]
    simp only [h5, hlen, if_false, buildRows_eq_specRows]
    rfl
  · intro p c q hsplit
    refine ⟨?_, by simp, ?_⟩
    · rw [hsplit]
      simp only [buildRows_eq_specRows, specRows_append, specRows_cons, List.append_assoc]
    · intro row hrow
      obtain ⟨ss, _, rfl⟩ := List.mem_map.mp hrow
      simp [specRow]

theorem rows_are_pairs_in_order_witness :
    (GetStatesList sampleEnv).1 = .ok [("Kerala", 1)] ∧
    (prompt sampleEnv "Select States" [("Kerala", 1)]).1 = .ok "Kerala" ∧
    mapOrNil (GetDistricts sampleEnv (GoMap.index [("Kerala", 1)] "Kerala")).1
      = [("Idukki", 7)] ∧
    (prompt sampleEnv "Select Districts" [("Idukki", 7)]).1 = .ok "Idukki" ∧
    (GetSlots sampleEnv (GoMap.index [("Idukki", 7)] "Idukki")).1 = .ok (some sampleSlots) ∧
    buildRows sampleSlots.Centers
      = [["01-05-2021", "PHC Munnar", "Devikulam", "1234567890123456789012", "COVISHIELD",
          "18", ""],
         ["02-05-2021", "PHC Munnar", "Devikulam", "1234567890123456789012", "", "45",
          "5.0"]] ∧
    buildRows sampleSlots.Centers = specRows sampleSlots.Centers ∧
    (sampleSlots.Centers ≠ [] →
      (main sampleEnv).getLast? = some (Event.render
        ["Date", "Name", "Block", "Pincode", "Vaccine", "AgeLimit", "AvailableCapacity"]
        [1] true (specRows sampleSlots.Centers))) ∧
    ∀ p c q, sampleSlots.Centers = p ++ c :: q →
      buildRows sampleSlots.Centers
        = buildRows p ++ c.Sessions.map (specRow c) ++ buildRows q ∧
      (c.Sessions.map (specRow c)).length = c.Sessions.length ∧
      ∀ row ∈ c.Sessions.map (specRow c), row.length = 7 ∧ row[1]? = some c.Name :=
  ⟨by rfl, by rfl, by rfl, by rfl, by rfl,
    (rows_are_pairs_in_order sampleEnv [("Kerala", 1)] [("Idukki", 7)] "Kerala" "Idukki"
      sampleSlots (by rfl) (by rfl) (by rfl) (by rfl) (by rfl)).1.trans (by rfl),
    (rows_are_pairs_in_order sampleEnv [("Kerala", 1)] [("Idukki", 7)] "Kerala" "Idukki"
      sampleSlots (by rfl) (by rfl) (by rfl) (by rfl) (by rfl)).2⟩

/-- C5: when a run decodes a slots response with an empty center list it ends
with the fatal message "There are no vaccinations centers are available" and
no event of the run is a rendered table; when the center list is non-empty the
run ends with the rendered table and no event of the run is a fatal exit, and
if moreover every center has no sessions the rendered table has zero data
rows. -/
theorem empty_center_guard (env : Env) (states districts : GoMap) (s d : String)
    (slots : SlotsResponse)
    (h1 : (GetStatesList env).1 = .ok states)
    (h2 : (prompt env "Select States" states).1 = .ok s)
    (h3 : mapOrNil (GetDistricts env (states.index s)).1 = districts)
    (h4 : (prompt env "Select Districts" districts).1 = .ok d)
    (h5 : (GetSlots env (districts.index d)).1 = .ok (some slots)) :
    (slots.Centers = [] →
      (main env).getLast? = some (Event.fatal "There are no vaccinations centers are available") ∧
      ∀ e ∈ main env, e.isRender = false) ∧
    (slots.Centers ≠ [] →
      (main env).getLast? = some (Event.render
        ["Date", "Name", "Block", "Pincode", "Vaccine", "AgeLimit", "AvailableCapacity"]
        [1] true (buildRows slots.Centers)) ∧
      (∀ e ∈ main env, e.isFatal = false) ∧
      ((∀ c ∈ slots.Centers, c.Sessions = []) → buildRows slots.Centers = [])) := by
  subst h3
  constructor
  · intro hnil
    rw [main_of_slots env states s d h1 h2 h4]
    simp only [h5, hnil]
    refine ⟨by rfl, ?_⟩
    intro e he
    simp at he
    rcases he with rfl | rfl | rfl | rfl | rfl | rfl <;> rfl
  · intro hne
    have hlen : ¬ slots.Centers.length < 1 := by
      cases hc : slots.Centers with
      | nil => exact absurd hc hne
      | cons c cs => simp
    rw [main_of_slots env states s d h1 h2 h4]
    simp only [h5, hlen, if_false]
    refine ⟨by rfl, ?_, ?_⟩
    · intro e he
      simp at he
      rcases he with rfl | rfl | rfl | rfl | rfl | rfl <;> rfl
    · intro hall
      rw [buildRows_eq_specRows]
      simp only [specRows, List.flatMap_eq_nil_iff]
      intro c hc
      simp [hall c hc]

theorem empty_center_guard_witness :
    ((GetStatesList noCentersEnv).1 = .ok [("Kerala", 1)] ∧
     (prompt noCentersEnv "Select States" [("Kerala", 1)]).1 = .ok "Kerala" ∧
     mapOrNil (GetDistricts noCentersEnv (GoMap.index [("Kerala", 1)] "Kerala")).1
       = [("Idukki", 7)] ∧
     (prompt noCentersEnv "Select Districts" [("Idukki", 7)]).1 = .ok "Idukki" ∧
     (GetSlots noCentersEnv (GoMap.index [("Idukki", 7)] "Idukki")).1 = .ok (some ⟨[]⟩) ∧
     (main noCentersEnv).getLast?
       = some (Event.fatal "There are no vaccinations centers are available") ∧
     ∀ e ∈ main noCentersEnv, e.isRender = false) ∧
    ((GetStatesList sampleEnv).1 = .ok [("Kerala", 1)] ∧
     (prompt sampleEnv "Select States" [("Kerala", 1)]).1 = .ok "Kerala" ∧
     mapOrNil (GetDistricts sampleEnv (GoMap.index [("Kerala", 1)] "Kerala")).1
       = [("Idukki", 7)] ∧
     (prompt sampleEnv "Select Districts" [("Idukki", 7)]).1 = .ok "Idukki" ∧
     (GetSlots sampleEnv (GoMap.index [("Idukki", 7)] "Idukki")).1 = .ok (some sampleSlots) ∧
     (main sampleEnv).getLast? = some (Event.render
        ["Date", "Name", "Block", "Pincode", "Vaccine", "AgeLimit", "AvailableCapacity"]
        [1] true (buildRows sampleSlots.Centers)) ∧
     ∀ e ∈ main sampleEnv, e.isFatal = false) :=
  ⟨⟨by rfl, by rfl, by rfl, by rfl, by rfl,
      ((empty_center_guard noCentersEnv [("Kerala", 1)] [("Idukki", 7)] "Kerala" "Idukki"
        ⟨[]⟩ (by rfl) (by rfl) (by rfl) (by rfl) (by rfl)).1 rfl)⟩,
   ⟨by rfl, by rfl, by rfl, by rfl, by rfl,
      ((empty_center_guard sampleEnv [("Kerala", 1)] [("Idukki", 7)] "Kerala" "Idukki"
        sampleSlots (by rfl) (by rfl) (by rfl) (by rfl) (by rfl)).2 (by decide)).1,
      ((empty_center_guard sampleEnv [("Kerala", 1)] [("Idukki", 7)] "Kerala" "Idukki"
        sampleSlots (by rfl) (by rfl) (by rfl) (by rfl) (by rfl)).2 (by decide)).2.1⟩⟩

/-! ## The state and district maps (C4, C9, C8) -/

theorem GetStatesList_ok (env : Env) (body : String) (r : StatesResponse)
    (hb : env.httpGet "https://cdn-api.co-vin.in/api/v2/admin/location/states" = .ok body)
    (hr : unmarshalStates env body = .ok r) :
    (GetStatesList env).1 = .ok (statesMap r.States) := by
  simp [GetStatesList, Request, hb, hr]

theorem GetDistricts_ok (env : Env) (stateId : Int) (body : String) (r : DistrictsResponse)
    (hb : env.httpGet
            ("https://cdn-api.co-vin.in/api/v2/admin/location/districts/" ++ toString stateId)
          = .ok body)
    (hr : unmarshalDistricts env body = .ok r) :
    (GetDistricts env stateId).1 = .ok (districtsMap r.Districts) := by
  simp [GetDistricts, Request, hb, hr]

theorem statesMap_get?_of_nodup (states : List State)
    (hnd : (states.map (fun st => st.StateName)).Nodup) (st : State) (hst : st ∈ states) :
    (statesMap states).get? st.StateName = some st.StateID := by
  unfold statesMap
  rw [fold_set_get?, find?_reverse_of_nodup (fun st => st.StateName) states hnd st hst]
  simp

/-- C4: for a states payload that decodes and whose entries carry pairwise
distinct names, `GetStatesList` returns a map with exactly as many entries as
the payload has states, and the map sends every entry's name to that entry's
id. -/
theorem states_map_of_distinct_names (env : Env) (body : String) (r : StatesResponse)
    (hb : env.httpGet "https://cdn-api.co-vin.in/api/v2/admin/location/states" = .ok body)
    (hr : unmarshalStates env body = .ok r)
    (hnd : (r.States.map (fun st => st.StateName)).Nodup) :
    ∃ m, (GetStatesList env).1 = .ok m ∧
      m.len = r.States.length ∧
      ∀ st ∈ r.States, m.get? st.StateName = some st.StateID ∧
        m.index st.StateName = st.StateID := by
  refine ⟨statesMap r.States, GetStatesList_ok env body r hb hr, ?_, ?_⟩
  · unfold statesMap
    rw [fold_set_len, hnd.dedup, List.length_map]
  · intro st hst
    have h := statesMap_get?_of_nodup r.States hnd st hst
    exact ⟨h, by simp [GoMap.index, h]⟩

theorem states_map_of_distinct_names_witness :
    sampleEnv.httpGet "https://cdn-api.co-vin.in/api/v2/admin/location/states" = .ok "S" ∧
    unmarshalStates sampleEnv "S" = .ok ⟨[⟨1, "Kerala"⟩], 0⟩ ∧
    (([⟨1, "Kerala"⟩] : List State).map (fun st => st.StateName)).Nodup ∧
    ∃ m, (GetStatesList sampleEnv).1 = .ok m ∧
      m.len = ([⟨1, "Kerala"⟩] : List State).length ∧
      ∀ st ∈ ([⟨1, "Kerala"⟩] : List State), m.get? st.StateName = some st.StateID ∧
        m.index st.StateName = st.StateID :=
  ⟨by rfl, by rfl, by decide,
    states_map_of_distinct_names sampleEnv "S" ⟨[⟨1, "Kerala"⟩], 0⟩ (by rfl) (by rfl)
      (by decide)⟩

/-- C9: for every list of payload entries, repeated names included, the map
built by the loop of `GetStatesList` (and likewise by the loop of
`GetDistricts`) has pairwise distinct keys, its keys are exactly the names
that occur, so it has one entry per distinct name, and it sends each name to
the id of the last entry carrying that name; the functions return that map
without an error whenever the request and the decoding succeed. -/
theorem repeated_name_keeps_last_id (states : List State) (districts : List District) :
    ((statesMap states).keys.Nodup ∧
      (∀ n, n ∈ (statesMap states).keys ↔ n ∈ states.map (fun st => st.StateName)) ∧
      (statesMap states).len = (states.map (fun st => st.StateName)).dedup.length ∧
      ∀ n, (statesMap states).get? n
        = (states.reverse.find? (fun st => st.StateName = n)).map (fun st => st.StateID)) ∧
    ((districtsMap districts).keys.Nodup ∧
      (∀ n, n ∈ (districtsMap districts).keys
        ↔ n ∈ districts.map (fun dt => dt.DistrictName)) ∧
      (districtsMap districts).len
        = (districts.map (fun dt => dt.DistrictName)).dedup.length ∧
      ∀ n, (districtsMap districts).get? n
        = (districts.reverse.find? (fun dt => dt.DistrictName = n)).map
            (fun dt => dt.DistrictID)) ∧
    (∀ (env : Env) (body : String) (ttl : Int),
      env.httpGet "https://cdn-api.co-vin.in/api/v2/admin/location/states" = .ok body →
      unmarshalStates env body = .ok ⟨states, ttl⟩ →
      (GetStatesList env).1 = .ok (statesMap states)) ∧
    (∀ (env : Env) (stateId : Int) (body : String) (ttl : Int),
      env.httpGet
          ("https://cdn-api.co-vin.in/api/v2/admin/location/districts/" ++ toString stateId)
        = .ok body →
      unmarshalDistricts env body = .ok ⟨districts, ttl⟩ →
      (GetDistricts env stateId).1 = .ok (districtsMap districts)) := by
  refine ⟨⟨?_, ?_, ?_, ?_⟩, ⟨?_, ?_, ?_, ?_⟩, ?_, ?_⟩
  · exact fold_set_nodup_keys _ _ states [] (by simp [GoMap.keys])
  · intro n
    unfold statesMap
    rw [fold_set_mem_keys]
    simp [GoMap.keys]
  · exact fold_set_len _ _ states
  · intro n
    unfold statesMap
    rw [fold_set_get?]
    simp [GoMap.get?]
  · exact fold_set_nodup_keys _ _ districts [] (by simp [GoMap.keys])
  · intro n
    unfold districtsMap
    rw [fold_set_mem_keys]
    simp [GoMap.keys]
  · exact fold_set_len _ _ districts
  · intro n
    unfold districtsMap
    rw [fold_set_get?]
    simp [GoMap.get?]
  · intro env body ttl hb hr
    exact GetStatesList_ok env body _ hb hr
  · intro env stateId body ttl hb hr
    exact GetDistricts_ok env stateId body _ hb hr

theorem repeated_name_keeps_last_id_witness :
    statesMap repeatedStates = [("Goa", 3), ("Kerala", 2)] ∧
    districtsMap repeatedDistricts = [("Idukki", 8)] ∧
    (GetStatesList repeatedNamesEnv).1 = .ok (statesMap repeatedStates) ∧
    (GetDistricts repeatedNamesEnv 3).1 = .ok (districtsMap repeatedDistricts) ∧
    (statesMap repeatedStates).len
      = (repeatedStates.map (fun st => st.StateName)).dedup.length ∧
    (statesMap repeatedStates).get? "Goa"
      = (repeatedStates.reverse.find? (fun st => st.StateName = "Goa")).map
          (fun st => st.StateID) :=
  ⟨by rfl, by rfl,
    (repeated_name_keeps_last_id repeatedStates repeatedDistricts).2.2.1
      repeatedNamesEnv "S" 0 (by rfl) (by rfl),
    (repeated_name_keeps_last_id repeatedStates repeatedDistricts).2.2.2
      repeatedNamesEnv 3 "D" 0 (by rfl) (by rfl),
    (repeated_name_keeps_last_id repeatedStates repeatedDistricts).1.2.2.1,
    (repeated_name_keeps_last_id repeatedStates repeatedDistricts).1.2.2.2 "Goa"⟩

/-- C8: for a states payload that decodes with pairwise distinct names and
contains the entry (i, n), a run in which the state prompt answers n starts
with the states request, the state prompt, and a request of the URL
"https://cdn-api.co-vin.in/api/v2/admin/location/districts/" followed by the
decimal text of i; every later request of the run goes to the calendar
endpoint. -/
theorem districts_request_for_selected_state (env : Env) (body : String) (r : StatesResponse)
    (n : String) (i : Int)
    (hb : env.httpGet "https://cdn-api.co-vin.in/api/v2/admin/location/states" = .ok body)
    (hr : unmarshalStates env body = .ok r)
    (hnd : (r.States.map (fun st => st.StateName)).Nodup)
    (hmem : (⟨i, n⟩ : State) ∈ r.States)
    (hsel : env.selectRun "Select States" (env.rangeOrder (statesMap r.States)).val = .ok n) :
    ∃ rest, main env =
        [Event.request "https://cdn-api.co-vin.in/api/v2/admin/location/states",
         Event.select "Select States" (env.rangeOrder (statesMap r.States)).val,
         Event.request
           ("https://cdn-api.co-vin.in/api/v2/admin/location/districts/" ++ toString i)]
        ++ rest ∧
      ∀ u, Event.request u ∈ rest → ∃ d : Int, u =
        "https://cdn-api.co-vin.in/api/v2/appointment/sessions/calendarByDistrict?district_id="
          ++ toString d ++ "&date=" ++ env.today := by
  have h1 := GetStatesList_ok env body r hb hr
  have h2 : (prompt env "Select States" (statesMap r.States)).1 = .ok n := by
    simp [prompt, hsel]
  have hidx : (statesMap r.States).index n = i := by
    have h := statesMap_get?_of_nodup r.States hnd ⟨i, n⟩ hmem
    simp only at h
    simp [GoMap.index, h]
  unfold main
  simp only [h1, h2, hidx, GetStatesList_events, GetDistricts_events, GetSlots_events,
    prompt_events]
  split
  · exact ⟨_, by simp only [List.append_assoc, List.cons_append, List.nil_append]; rfl,
      by intro u hu; simp at hu⟩
  · split
    · exact ⟨_, by simp only [List.append_assoc, List.cons_append, List.nil_append]; rfl,
        by intro u hu; simp at hu; exact ⟨_, hu⟩⟩
    · exact ⟨_, by simp only [List.append_assoc, List.cons_append, List.nil_append]; rfl,
        by intro u hu; simp at hu; exact ⟨_, hu⟩⟩
    · split
      · exact ⟨_, by simp only [List.append_assoc, List.cons_append, List.nil_append]; rfl,
          by intro u hu; simp at hu; exact ⟨_, hu⟩⟩
      · exact ⟨_, by simp only [List.append_assoc, List.cons_append, List.nil_append]; rfl,
          by intro u hu; simp at hu; exact ⟨_, hu⟩⟩

theorem districts_request_for_selected_state_witness :
    sampleEnv.httpGet "https://cdn-api.co-vin.in/api/v2/admin/location/states" = .ok "S" ∧
    unmarshalStates sampleEnv "S" = .ok ⟨[⟨1, "Kerala"⟩], 0⟩ ∧
    (([⟨1, "Kerala"⟩] : List State).map (fun st => st.StateName)).Nodup ∧
    (⟨1, "Kerala"⟩ : State) ∈ ([⟨1, "Kerala"⟩] : List State) ∧
    sampleEnv.selectRun "Select States"
        (sampleEnv.rangeOrder (statesMap [⟨1, "Kerala"⟩])).val = .ok "Kerala" ∧
    ∃ rest, main sampleEnv =
        [Event.request "https://cdn-api.co-vin.in/api/v2/admin/location/states",
         Event.select "Select States" ["Kerala"],
         Event.request "https://cdn-api.co-vin.in/api/v2/admin/location/districts/1"]
        ++ rest ∧
      ∀ u, Event.request u ∈ rest → ∃ d : Int, u =
        "https://cdn-api.co-vin.in/api/v2/appointment/sessions/calendarByDistrict?district_id="
          ++ toString d ++ "&date=" ++ sampleEnv.today :=
  ⟨by rfl, by rfl, by decide, by decide, by rfl,
    districts_request_for_selected_state sampleEnv "S" ⟨[⟨1, "Kerala"⟩], 0⟩ "Kerala" 1
      (by rfl) (by rfl) (by decide) (by decide) (by rfl)⟩

/-! ## Two runs that do not end where the checks of `main` intend (C3, C10) -/

/-- After a successful state prompt, an error of `GetDistricts` does not end
the run: the next event is the district prompt, offered no items. -/
theorem district_error_is_ignored (env : Env) (states : GoMap) (s e : String)
    (h1 : (GetStatesList env).1 = .ok states)
    (h2 : (prompt env "Select States" states).1 = .ok s)
    (h3 : (GetDistricts env (states.index s)).1 = .error e) :
    ∃ rest, main env =
      [Event.request "https://cdn-api.co-vin.in/api/v2/admin/location/states",
       Event.select "Select States" (env.rangeOrder states).val,
       Event.request
         ("https://cdn-api.co-vin.in/api/v2/admin/location/districts/"
           ++ toString (states.index s)),
       Event.select "Select Districts" []] ++ rest := by
  have hnil : (env.rangeOrder []).val = [] := by
    have := (env.rangeOrder []).property
    simpa [GoMap.keys] using this
  unfold main
  simp only [h1, h2, h3, mapOrNil, GetStatesList_events, GetDistricts_events,
    GetSlots_events, prompt_events, hnil]
  split
  · exact ⟨_, by simp only [List.append_assoc, List.cons_append, List.nil_append]; rfl⟩
  · split
    · exact ⟨_, by simp only [List.append_assoc, List.cons_append, List.nil_append]; rfl⟩
    · exact ⟨_, by simp only [List.append_assoc, List.cons_append, List.nil_append]; rfl⟩
    · split
      · exact ⟨_, by simp only [List.append_assoc, List.cons_append, List.nil_append]; rfl⟩
      · exact ⟨_, by simp only [List.append_assoc, List.cons_append, List.nil_append]; rfl⟩

/-- C3 (the code departs from the claim): with the districts endpoint
unreachable `GetDistricts` returns an error, yet the run goes on to show the
district prompt, with no items, and ends only when that prompt fails. -/
theorem district_fetch_error_run :
    (GetDistricts districtsDownEnv 1).1 = .error "dial tcp: connect: connection refused" ∧
    main districtsDownEnv =
      [Event.request "https://cdn-api.co-vin.in/api/v2/admin/location/states",
       Event.select "Select States" ["Kerala"],
       Event.request "https://cdn-api.co-vin.in/api/v2/admin/location/districts/1",
       Event.select "Select Districts" [],
       Event.fatal "Prompt failed ^C"] := by
  constructor <;> rfl

/-- C10 (the code departs from the claim): on the response body `null`
`GetSlots` returns a nil pointer and no error, and the run ends in the nil
dereference of `slots.Centers`. -/
theorem null_body_run :
    nullSlotsEnv.scan "null" = .ok Json.null ∧
    (GetSlots nullSlotsEnv 7).1 = .ok none ∧
    main nullSlotsEnv =
      [Event.request "https://cdn-api.co-vin.in/api/v2/admin/location/states",
       Event.select "Select States" ["Kerala"],
       Event.request "https://cdn-api.co-vin.in/api/v2/admin/location/districts/1",
       Event.select "Select Districts" ["Idukki"],
       Event.request
         "https://cdn-api.co-vin.in/api/v2/appointment/sessions/calendarByDistrict?district_id=7&date=01-05-2021",
       Event.panic "runtime error: invalid memory address or nil pointer dereference"] := by
  refine ⟨?_, ?_, ?_⟩ <;> rfl


/-! ## Decoding one object: which member decides a field -/

theorem keyIs_other (k t t2 : String) (h : keyIs k t = true) (hne : t ≠ t2) :
    keyIs k t2 = false := by
  unfold keyIs at *
  simp only [decide_eq_true_eq] at h
  simp only [decide_eq_false_iff_not, h]
  intro h2
  exact hne (String.ext h2)

theorem lastMember_cons_of_some (kv : String × Json) (rest : List (String × Json))
    (tag : String) (v : Json) (h : lastMember rest tag = some v) :
    lastMember (kv :: rest) tag = some v := by
  unfold lastMember at *
  simp only [List.reverse_cons, List.find?_append]
  cases hf : List.find? (fun kv => keyIs kv.1 tag) rest.reverse with
  | none => simp [hf] at h
  | some x => simpa [hf] using h

theorem lastMember_cons_of_none (kv : String × Json) (rest : List (String × Json))
    (tag : String) (h : lastMember rest tag = none) :
    lastMember (kv :: rest) tag = if keyIs kv.1 tag then some kv.2 else none := by
  unfold lastMember at *
  simp only [List.reverse_cons, List.find?_append]
  cases hf : List.find? (fun kv => keyIs kv.1 tag) rest.reverse with
  | none => by_cases hk : keyIs kv.1 tag = true <;> simp [hk, List.find?]
  | some x => simp [hf] at h

theorem lastMember_eq_none (members : List (String × Json)) (tag : String) :
    lastMember members tag = none ↔ ∀ kv ∈ members, keyIs kv.1 tag = false := by
  unfold lastMember
  simp [List.find?_eq_none]

/-- A fold over members none of which selects the field leaves the field as
it was. -/
theorem fold_keeps_field {α β : Type} (f : α → String → Json → Except String α)
    (proj : α → β) (tag : String)
    (hother : ∀ acc k v res, keyIs k tag = false → f acc k v = .ok res → proj res = proj acc)
    (members : List (String × Json)) (cur res : α)
    (hno : ∀ kv ∈ members, keyIs kv.1 tag = false)
    (h : members.foldlM (fun acc kv => f acc kv.1 kv.2) cur = .ok res) :
    proj res = proj cur := by
  induction members generalizing cur with
  | nil =>
    simp only [List.foldlM_nil, pure, Except.pure, Except.ok.injEq] at h
    rw [h]
  | cons kv rest ih =>
    simp only [List.foldlM_cons, bind, Except.bind] at h
    cases hstep : f cur kv.1 kv.2 with
    | error e => simp [hstep] at h
    | ok next =>
      simp only [hstep] at h
      rw [ih next (fun x hx => hno x (List.mem_cons_of_mem _ hx)) h]
      exact hother cur kv.1 kv.2 next (hno kv (List.mem_cons_self _ _)) hstep

/-- The last member that selects a field is the one stored into it. -/
theorem fold_last_member {α β : Type} (f : α → String → Json → Except String α)
    (proj : α → β) (store : β → Json → Except String β) (tag : String)
    (hsel : ∀ acc k v res, keyIs k tag = true → f acc k v = .ok res →
      store (proj acc) v = .ok (proj res))
    (hother : ∀ acc k v res, keyIs k tag = false → f acc k v = .ok res → proj res = proj acc)
    (members : List (String × Json)) (cur res : α) (v : Json)
    (h : members.foldlM (fun acc kv => f acc kv.1 kv.2) cur = .ok res)
    (hlast : lastMember members tag = some v) :
    ∃ before, store before v = .ok (proj res) := by
  induction members generalizing cur with
  | nil => simp [lastMember] at hlast
  | cons kv rest ih =>
    simp only [List.foldlM_cons, bind, Except.bind] at h
    cases hstep : f cur kv.1 kv.2 with
    | error e => simp [hstep] at h
    | ok next =>
      simp only [hstep] at h
      cases hrest : lastMember rest tag with
      | some w =>
        rw [lastMember_cons_of_some kv rest tag w hrest] at hlast
        cases hlast
        exact ih next h hrest
      | none =>
        rw [lastMember_cons_of_none kv rest tag hrest] at hlast
        by_cases hk : keyIs kv.1 tag = true
        · simp only [hk, if_true, Option.some.injEq] at hlast
          subst hlast
          have hkeep := fold_keeps_field f proj tag hother rest next res
            ((lastMember_eq_none rest tag).mp hrest) h
          exact ⟨proj cur, by rw [hkeep]; exact hsel cur kv.1 kv.2 next hk hstep⟩
        · simp [hk] at hlast

theorem map_eq_ok {α β : Type} (e : Except String α) (g : α → β) (res : β)
    (h : e.map g = .ok res) : ∃ x, e = .ok x ∧ g x = res := by
  cases e with
  | error err => simp [Except.map] at h
  | ok x => exact ⟨x, rfl, by simpa [Except.map] using h⟩

theorem ite_ok_cases {α : Type} (b : Bool) (A B : Except String α) (res : α)
    (h : (if b = true then A else B) = .ok res) :
    (b = true ∧ A = .ok res) ∨ (b = false ∧ B = .ok res) := by
  cases b with
  | true => exact Or.inl ⟨rfl, by simpa using h⟩
  | false => exact Or.inr ⟨rfl, by simpa using h⟩

theorem sessionField_other_capacity (acc : SessionMem) (k : String) (v : Json) (res : SessionMem)
    (hk : keyIs k "available_capacity" = false) (h : sessionField acc k v = .ok res) :
    res.AvailableCapacity = acc.AvailableCapacity := by
  unfold sessionField at h
  iterate 6
    obtain ⟨hp, h⟩ | ⟨_, h⟩ := ite_ok_cases _ _ _ _ h
    · first
        | (obtain ⟨x, _, rfl⟩ := map_eq_ok _ _ _ h; rfl)
        | (rw [hk] at hp; cases hp)
  cases h
  rfl

theorem sessionField_sel_capacity (acc : SessionMem) (k : String) (v : Json) (res : SessionMem)
    (hk : keyIs k "available_capacity" = true) (h : sessionField acc k v = .ok res) :
    storeNumber acc.AvailableCapacity v = .ok res.AvailableCapacity := by
  unfold sessionField at h
  rw [if_neg (by rw [keyIs_other k _ "session_id" hk (by decide)]; decide),
    if_neg (by rw [keyIs_other k _ "date" hk (by decide)]; decide),
    if_pos hk] at h
  obtain ⟨x, hx, rfl⟩ := map_eq_ok _ _ _ h
  exact hx

theorem sessionField_other_age (acc : SessionMem) (k : String) (v : Json) (res : SessionMem)
    (hk : keyIs k "min_age_limit" = false) (h : sessionField acc k v = .ok res) :
    res.MinAgeLimit = acc.MinAgeLimit := by
  unfold sessionField at h
  iterate 6
    obtain ⟨hp, h⟩ | ⟨_, h⟩ := ite_ok_cases _ _ _ _ h
    · first
        | (obtain ⟨x, _, rfl⟩ := map_eq_ok _ _ _ h; rfl)
        | (rw [hk] at hp; cases hp)
  cases h
  rfl

theorem sessionField_sel_age (acc : SessionMem) (k : String) (v : Json) (res : SessionMem)
    (hk : keyIs k "min_age_limit" = true) (h : sessionField acc k v = .ok res) :
    storeNumber acc.MinAgeLimit v = .ok res.MinAgeLimit := by
  unfold sessionField at h
  rw [if_neg (by rw [keyIs_other k _ "session_id" hk (by decide)]; decide),
    if_neg (by rw [keyIs_other k _ "date" hk (by decide)]; decide),
    if_neg (by rw [keyIs_other k _ "available_capacity" hk (by decide)]; decide),
    if_pos hk] at h
  obtain ⟨x, hx, rfl⟩ := map_eq_ok _ _ _ h
  exact hx

theorem centerField_other_pincode (acc : CenterMem) (k : String) (v : Json) (res : CenterMem)
    (hk : keyIs k "pincode" = false) (h : centerField acc k v = .ok res) :
    res.Pincode = acc.Pincode := by
  unfold centerField at h
  iterate 12
    obtain ⟨hp, h⟩ | ⟨_, h⟩ := ite_ok_cases _ _ _ _ h
    · first
        | (obtain ⟨x, _, rfl⟩ := map_eq_ok _ _ _ h; rfl)
        | (rw [hk] at hp; cases hp)
  cases h
  rfl

theorem centerField_sel_pincode (acc : CenterMem) (k : String) (v : Json) (res : CenterMem)
    (hk : keyIs k "pincode" = true) (h : centerField acc k v = .ok res) :
    storeNumber acc.Pincode v = .ok res.Pincode := by
  unfold centerField at h
  rw [if_neg (by rw [keyIs_other k _ "center_id" hk (by decide)]; decide),
    if_neg (by rw [keyIs_other k _ "name" hk (by decide)]; decide),
    if_neg (by rw [keyIs_other k _ "state_name" hk (by decide)]; decide),
    if_neg (by rw [keyIs_other k _ "district_name" hk (by decide)]; decide),
    if_neg (by rw [keyIs_other k _ "block_name" hk (by decide)]; decide),
    if_pos hk] at h
  obtain ⟨x, hx, rfl⟩ := map_eq_ok _ _ _ h
  exact hx

theorem centerField_other_sessions (acc : CenterMem) (k : String) (v : Json) (res : CenterMem)
    (hk : keyIs k "sessions" = false) (h : centerField acc k v = .ok res) :
    res.Sessions = acc.Sessions := by
  unfold centerField at h
  iterate 12
    obtain ⟨hp, h⟩ | ⟨_, h⟩ := ite_ok_cases _ _ _ _ h
    · first
        | (obtain ⟨x, _, rfl⟩ := map_eq_ok _ _ _ h; rfl)
        | (rw [hk] at hp; cases hp)
  cases h
  rfl

theorem centerField_sel_sessions (acc : CenterMem) (k : String) (v : Json) (res : CenterMem)
    (hk : keyIs k "sessions" = true) (h : centerField acc k v = .ok res) :
    storeSlice zeroSession (storeStruct sessionField) acc.Sessions v = .ok res.Sessions := by
  unfold centerField at h
  rw [if_neg (by rw [keyIs_other k _ "center_id" hk (by decide)]; decide),
    if_neg (by rw [keyIs_other k _ "name" hk (by decide)]; decide),
    if_neg (by rw [keyIs_other k _ "state_name" hk (by decide)]; decide),
    if_neg (by rw [keyIs_other k _ "district_name" hk (by decide)]; decide),
    if_neg (by rw [keyIs_other k _ "block_name" hk (by decide)]; decide),
    if_neg (by rw [keyIs_other k _ "pincode" hk (by decide)]; decide),
    if_neg (by rw [keyIs_other k _ "lat" hk (by decide)]; decide),
    if_neg (by rw [keyIs_other k _ "long" hk (by decide)]; decide),
    if_neg (by rw [keyIs_other k _ "from" hk (by decide)]; decide),
    if_neg (by rw [keyIs_other k _ "to" hk (by decide)]; decide),
    if_neg (by rw [keyIs_other k _ "fee_type" hk (by decide)]; decide),
    if_pos hk] at h
  obtain ⟨x, hx, rfl⟩ := map_eq_ok _ _ _ h
  exact hx

theorem slotsResponseField_other_centers (acc : SlotsResponseMem) (k : String) (v : Json)
    (res : SlotsResponseMem)
    (hk : keyIs k "centers" = false) (h : slotsResponseField acc k v = .ok res) :
    res.Centers = acc.Centers := by
  unfold slotsResponseField at h
  rw [if_neg (by rw [hk]; decide)] at h
  cases h
  rfl

theorem slotsResponseField_sel_centers (acc : SlotsResponseMem) (k : String) (v : Json) (res : SlotsResponseMem)
    (hk : keyIs k "centers" = true) (h : slotsResponseField acc k v = .ok res) :
    storeSlice zeroCenter (storeStruct centerField) acc.Centers v = .ok res.Centers := by
  unfold slotsResponseField at h
  rw [if_pos hk] at h
  obtain ⟨x, hx, rfl⟩ := map_eq_ok _ _ _ h
  exact hx

theorem lastMember_cons_of_not (kv : String × Json) (rest : List (String × Json))
    (tag : String) (hk : keyIs kv.1 tag = false) :
    lastMember (kv :: rest) tag = lastMember rest tag := by
  cases hrest : lastMember rest tag with
  | some w => exact lastMember_cons_of_some kv rest tag w hrest
  | none => rw [lastMember_cons_of_none kv rest tag hrest, hk]; rfl

/-- When exactly one member selects a field, that member is stored into the
field as the fold found it at the start. -/
theorem fold_single_member {α β : Type} (f : α → String → Json → Except String α)
    (proj : α → β) (store : β → Json → Except String β) (tag : String)
    (hsel : ∀ acc k v res, keyIs k tag = true → f acc k v = .ok res →
      store (proj acc) v = .ok (proj res))
    (hother : ∀ acc k v res, keyIs k tag = false → f acc k v = .ok res → proj res = proj acc)
    (members : List (String × Json)) (cur res : α) (v : Json)
    (h : members.foldlM (fun acc kv => f acc kv.1 kv.2) cur = .ok res)
    (hlast : lastMember members tag = some v)
    (hone : members.countP (fun kv => keyIs kv.1 tag) = 1) :
    store (proj cur) v = .ok (proj res) := by
  induction members generalizing cur with
  | nil => simp [lastMember] at hlast
  | cons kv rest ih =>
    simp only [List.foldlM_cons, bind, Except.bind] at h
    cases hstep : f cur kv.1 kv.2 with
    | error e => simp [hstep] at h
    | ok next =>
      simp only [hstep] at h
      by_cases hk : keyIs kv.1 tag = true
      · have hzero : rest.countP (fun kv => keyIs kv.1 tag) = 0 := by
          simp only [List.countP_cons, hk, if_true] at hone
          omega
        have hnone : ∀ x ∈ rest, keyIs x.1 tag = false := by
          intro x hx
          have := (List.countP_eq_zero.mp hzero) x hx
          simpa using this
        rw [lastMember_cons_of_none kv rest tag ((lastMember_eq_none rest tag).mpr hnone),
          if_pos hk] at hlast
        cases hlast
        rw [fold_keeps_field f proj tag hother rest next res hnone h]
        exact hsel cur kv.1 kv.2 next hk hstep
      · have hk2 : keyIs kv.1 tag = false := by simpa using hk
        rw [lastMember_cons_of_not kv rest tag hk2] at hlast
        simp only [List.countP_cons, hk2, Bool.false_eq_true, if_false, Nat.add_zero] at hone
        rw [← hother cur kv.1 kv.2 next hk2 hstep]
        exact ih next h hlast hone

theorem storeElems_getElem? {α : Type} (zero : α) (elem : α → Json → Except String α)
    (backing : List α) (js : List Json) (ys : List α)
    (h : storeElems zero elem backing js = .ok ys) (i : Nat) (x : Json)
    (hx : js[i]? = some x) :
    ∃ y, ys[i]? = some y ∧ elem ((backing[i]?).getD zero) x = .ok y := by
  induction js generalizing backing ys i with
  | nil => simp at hx
  | cons j rest ih =>
    have key : ∃ y tl, elem ((backing[0]?).getD zero) j = .ok y ∧
        storeElems zero elem backing.tail rest = .ok tl ∧ ys = y :: tl := by
      cases backing with
      | nil =>
        simp only [storeElems] at h
        cases hj : elem zero j with
        | error e => simp [hj, Except.bind] at h
        | ok y =>
          simp only [hj, Except.bind] at h
          obtain ⟨tl, htl, rfl⟩ := map_eq_ok _ _ _ h
          exact ⟨y, tl, by simpa using hj, by simpa using htl, rfl⟩
      | cons b bs =>
        simp only [storeElems] at h
        cases hj : elem b j with
        | error e => simp [hj, Except.bind] at h
        | ok y =>
          simp only [hj, Except.bind] at h
          obtain ⟨tl, htl, rfl⟩ := map_eq_ok _ _ _ h
          exact ⟨y, tl, by simpa using hj, by simpa using htl, rfl⟩
    obtain ⟨y, tl, hy, htl, rfl⟩ := key
    cases i with
    | zero =>
      simp only [List.getElem?_cons_zero, Option.some.injEq] at hx
      subst hx
      exact ⟨y, by simp, hy⟩
    | succ m =>
      simp only [List.getElem?_cons_succ] at hx
      obtain ⟨z, hz, hf⟩ := ih backing.tail tl htl m hx
      refine ⟨z, by simpa using hz, ?_⟩
      cases backing with
      | nil => simpa using hf
      | cons b bs => simpa using hf

/-- Element i of a non-empty array stored into a slice is stored into the
element the backing array holds at index i, or into a zero element. -/
theorem storeSlice_getElem? {α : Type} (zero : α) (elem : α → Json → Except String α)
    (cur res : Slice α) (js : List Json)
    (h : storeSlice zero elem cur (.arr js) = .ok res) (i : Nat) (x : Json)
    (hx : js[i]? = some x) :
    ∃ y, res.live[i]? = some y ∧
      elem (((cur.live ++ cur.spare)[i]?).getD zero) x = .ok y := by
  cases js with
  | nil => simp at hx
  | cons j rest =>
    simp only [storeSlice] at h
    obtain ⟨ys, hys, rfl⟩ := map_eq_ok _ _ _ h
    exact storeElems_getElem? zero elem _ _ ys hys i x hx

theorem sessionField_without_capacity (acc : SessionMem) (k : String) (v : Json)
    (res : SessionMem) (a : Number) (hk : keyIs k "available_capacity" = false)
    (h : sessionField acc k v = .ok res) :
    sessionField { acc with AvailableCapacity := a } k v
      = .ok { res with AvailableCapacity := a } := by
  unfold sessionField at h ⊢
  iterate 6
    obtain ⟨hp, h⟩ | ⟨hp, h⟩ := ite_ok_cases _ _ _ _ h
    · first
        | (rw [hk] at hp; cases hp)
        | (rw [if_pos hp]; obtain ⟨x, hx, rfl⟩ := map_eq_ok _ _ _ h; simp [hx, Except.map])
    rw [if_neg (by rw [hp]; decide)]
  cases h
  rfl

theorem sessionField_capacity_only (acc : SessionMem) (k : String) (v : Json)
    (res : SessionMem) (a : Number) (hk : keyIs k "available_capacity" = true)
    (h : sessionField acc k v = .ok res) :
    ({ res with AvailableCapacity := a } : SessionMem)
      = { acc with AvailableCapacity := a } := by
  unfold sessionField at h
  rw [if_neg (by rw [keyIs_other k _ "session_id" hk (by decide)]; decide),
    if_neg (by rw [keyIs_other k _ "date" hk (by decide)]; decide), if_pos hk] at h
  obtain ⟨x, hx, rfl⟩ := map_eq_ok _ _ _ h
  rfl

/-- Dropping every `available_capacity` member from a session object that
decodes gives an object that decodes to the same session with the
`AvailableCapacity` it started from. -/
theorem fold_without_capacity (members : List (String × Json)) (cur res : SessionMem)
    (a : Number)
    (h : members.foldlM (fun acc kv => sessionField acc kv.1 kv.2) cur = .ok res) :
    (members.filter (fun kv => !keyIs kv.1 "available_capacity")).foldlM
        (fun acc kv => sessionField acc kv.1 kv.2) { cur with AvailableCapacity := a }
      = .ok { res with AvailableCapacity := a } := by
  induction members generalizing cur with
  | nil =>
    simp only [List.foldlM_nil, pure, Except.pure, Except.ok.injEq] at h
    subst h
    rfl
  | cons kv rest ih =>
    simp only [List.foldlM_cons, bind, Except.bind] at h
    cases hstep : sessionField cur kv.1 kv.2 with
    | error e => simp [hstep] at h
    | ok next =>
      simp only [hstep] at h
      by_cases hk : keyIs kv.1 "available_capacity" = true
      · have := ih next h
        rw [sessionField_capacity_only cur kv.1 kv.2 next a hk hstep] at this
        simpa [List.filter, hk] using this
      · have hk2 : keyIs kv.1 "available_capacity" = false := by simpa using hk
        have hs := sessionField_without_capacity cur kv.1 kv.2 next a hk2 hstep
        simp only [List.filter, hk2, Bool.not_false, List.foldlM_cons, bind, Except.bind, hs]
        exact ih next h

/-! ## From the payload to the table (C6, C7) -/

theorem unmarshalSlots_obj (env : Env) (body : String) (top : List (String × Json))
    (r : SlotsResponse)
    (hscan : env.scan body = .ok (.obj top))
    (hdec : unmarshalSlots env body = .ok (some r)) :
    ∃ m : SlotsResponseMem,
      top.foldlM (fun acc kv => slotsResponseField acc kv.1 kv.2) ⟨⟨[], []⟩⟩ = .ok m ∧
      m.toSlotsResponse = r := by
  simp only [unmarshalSlots, hscan, Except.bind] at hdec
  obtain ⟨o, ho, hor⟩ := map_eq_ok _ _ _ hdec
  simp only [decodeSlotsPointer, storeStruct, Option.getD] at ho
  obtain ⟨m, hm, rfl⟩ := map_eq_ok _ _ _ ho
  simp only [Option.map_some', Option.some.injEq] at hor
  exact ⟨m, hm, hor⟩

/-- The decoded session at position (i, j) of a slots payload is the j-th
element of the deciding `sessions` array of the i-th element of the deciding
`centers` array, each stored into some element. -/
theorem decoded_session_at (top : List (String × Json)) (m : SlotsResponseMem)
    (cs : List Json) (i : Nat) (cm : List (String × Json))
    (ss : List Json) (j : Nat) (sm : List (String × Json))
    (htop : top.foldlM (fun acc kv => slotsResponseField acc kv.1 kv.2) ⟨⟨[], []⟩⟩ = .ok m)
    (hcs : lastMember top "centers" = some (.arr cs)) (hi : cs[i]? = some (.obj cm))
    (hss : lastMember cm "sessions" = some (.arr ss)) (hj : ss[j]? = some (.obj sm)) :
    ∃ c0 c s0 s, m.Centers.live[i]? = some c ∧ c.Sessions.live[j]? = some s ∧
      cm.foldlM (fun acc kv => centerField acc kv.1 kv.2) c0 = .ok c ∧
      sm.foldlM (fun acc kv => sessionField acc kv.1 kv.2) s0 = .ok s := by
  obtain ⟨b1, hcenters⟩ := fold_last_member slotsResponseField (fun x => x.Centers)
    (fun cur v => storeSlice zeroCenter (storeStruct centerField) cur v) "centers"
    slotsResponseField_sel_centers slotsResponseField_other_centers top ⟨⟨[], []⟩⟩ m (.arr cs)
    htop hcs
  obtain ⟨c, hc, hcdec⟩ := storeSlice_getElem? _ _ b1 m.Centers cs hcenters i (.obj cm) hi
  simp only [storeStruct] at hcdec
  obtain ⟨b2, hsessions⟩ := fold_last_member centerField (fun x => x.Sessions)
    (fun cur v => storeSlice zeroSession (storeStruct sessionField) cur v) "sessions"
    centerField_sel_sessions centerField_other_sessions cm _ c (.arr ss) hcdec hss
  obtain ⟨s, hs, hsdec⟩ := storeSlice_getElem? _ _ b2 c.Sessions ss hsessions j (.obj sm) hj
  simp only [storeStruct] at hsdec
  exact ⟨_, c, _, s, hc, hs, hcdec, hsdec⟩

/-- When the `centers` key and the center's `sessions` key each occur once,
the session at position (i, j) is decoded into a zero element of a zero
center. -/
theorem decoded_session_fresh (top : List (String × Json)) (m : SlotsResponseMem)
    (cs : List Json) (i : Nat) (cm : List (String × Json))
    (ss : List Json) (j : Nat) (sm : List (String × Json))
    (htop : top.foldlM (fun acc kv => slotsResponseField acc kv.1 kv.2) ⟨⟨[], []⟩⟩ = .ok m)
    (hcs : lastMember top "centers" = some (.arr cs)) (hi : cs[i]? = some (.obj cm))
    (hss : lastMember cm "sessions" = some (.arr ss)) (hj : ss[j]? = some (.obj sm))
    (honce : top.countP (fun kv => keyIs kv.1 "centers") = 1)
    (honce2 : cm.countP (fun kv => keyIs kv.1 "sessions") = 1) :
    ∃ c s, m.Centers.live[i]? = some c ∧ c.Sessions.live[j]? = some s ∧
      cm.foldlM (fun acc kv => centerField acc kv.1 kv.2) zeroCenter = .ok c ∧
      sm.foldlM (fun acc kv => sessionField acc kv.1 kv.2) zeroSession = .ok s := by
  have hcenters := fold_single_member slotsResponseField (fun x => x.Centers)
    (fun cur v => storeSlice zeroCenter (storeStruct centerField) cur v) "centers"
    slotsResponseField_sel_centers slotsResponseField_other_centers top ⟨⟨[], []⟩⟩ m (.arr cs)
    htop hcs honce
  obtain ⟨c, hc, hcdec⟩ := storeSlice_getElem? _ _ _ m.Centers cs hcenters i (.obj cm) hi
  simp only [storeStruct, List.append_nil, List.getElem?_nil, Option.getD_none] at hcdec
  have hsessions := fold_single_member centerField (fun x => x.Sessions)
    (fun cur v => storeSlice zeroSession (storeStruct sessionField) cur v) "sessions"
    centerField_sel_sessions centerField_other_sessions cm zeroCenter c (.arr ss)
    hcdec hss honce2
  obtain ⟨s, hs, hsdec⟩ := storeSlice_getElem? _ _ _ c.Sessions ss hsessions j (.obj sm) hj
  simp only [storeStruct, zeroCenter, List.append_nil, List.getElem?_nil,
    Option.getD_none] at hsdec
  exact ⟨c, s, hc, hs, hcdec, hsdec⟩

theorem row_mem_buildRows (centers : List Center) (c : Center) (s : Session)
    (hc : c ∈ centers) (hs : s ∈ c.Sessions) :
    [s.Date, c.Name, c.BlockName, c.Pincode, s.Vaccine, s.MinAgeLimit, s.AvailableCapacity]
      ∈ buildRows centers := by
  rw [buildRows_eq_specRows]
  simp only [specRows, List.mem_flatMap, List.mem_map]
  exact ⟨c, hc, s, hs, rfl⟩

/-- C6, counterexample to the claim as stated: in the payload whose center
object repeats the `sessions` key, the deciding `sessions` array holds the
session object `{"date":"d2"}`, which has no `available_capacity` member; it
is stored into the element the first array left, so the decoded session
keeps `AvailableCapacity` "5" and the row `main` renders for it ends in "5",
not in the empty string. -/
theorem missing_capacity_repeated_sessions :
    repeatedSessionsEnv.scan "C"
      = .ok (.obj [("centers", .arr [.obj repeatedSessionsCenterMembers])]) ∧
    unmarshalSlots repeatedSessionsEnv "C" = .ok (some repeatedSessionsSlots) ∧
    lastMember [("centers", .arr [.obj repeatedSessionsCenterMembers])] "centers"
      = some (.arr [.obj repeatedSessionsCenterMembers]) ∧
    [Json.obj repeatedSessionsCenterMembers][0]? = some (.obj repeatedSessionsCenterMembers) ∧
    lastMember repeatedSessionsCenterMembers "sessions"
      = some (.arr [.obj [("date", .str "d2")]]) ∧
    [Json.obj [("date", .str "d2")]][0]? = some (.obj [("date", .str "d2")]) ∧
    (∀ kv ∈ [(("date", .str "d2") : String × Json)],
      keyIs kv.1 "available_capacity" = false) ∧
    (repeatedSessionsSlots.Centers[0]?.bind (fun c => c.Sessions[0]?)).map
        (fun s => s.AvailableCapacity) = some "5" ∧
    buildRows repeatedSessionsSlots.Centers = [["d2", "PHC", "", "", "", "18", "5"]] ∧
    (main repeatedSessionsEnv).getLast? = some (Event.render
        ["Date", "Name", "Block", "Pincode", "Vaccine", "AgeLimit", "AvailableCapacity"]
        [1] true [["d2", "PHC", "", "", "", "18", "5"]]) ∧
    ¬ ∃ c s, repeatedSessionsSlots.Centers[0]? = some c ∧ c.Sessions[0]? = some s ∧
      s.AvailableCapacity = "" := by
  refine ⟨by rfl, by rfl, by rfl, by rfl, by rfl, by rfl, by decide, by rfl, by rfl, by rfl, ?_⟩
  rintro ⟨c, s, hc, hs, hcap⟩
  simp only [repeatedSessionsSlots, List.getElem?_cons_zero, Option.some.injEq] at hc
  subst hc
  simp only [List.getElem?_cons_zero, Option.some.injEq] at hs
  subst hs
  exact absurd hcap (by decide)

/-- C6, amended: in a slots payload that decodes, whose `centers` key occurs
once and whose center object has the `sessions` key once, a session object
without an `available_capacity` member decodes to a session whose
`AvailableCapacity` is the empty string, and the row `main` builds for it
ends in the empty string after the six other columns; and dropping the
`available_capacity` members of any session object that decodes into a zero
element never makes decoding fail and changes no other field. -/
theorem missing_capacity_is_empty_text (env : Env) (body : String)
    (top : List (String × Json)) (r : SlotsResponse)
    (cs : List Json) (i : Nat) (cm : List (String × Json))
    (ss : List Json) (j : Nat) (sm : List (String × Json))
    (hscan : env.scan body = .ok (.obj top))
    (hdec : unmarshalSlots env body = .ok (some r))
    (hcs : lastMember top "centers" = some (.arr cs)) (hi : cs[i]? = some (.obj cm))
    (hss : lastMember cm "sessions" = some (.arr ss)) (hj : ss[j]? = some (.obj sm))
    (honce : top.countP (fun kv => keyIs kv.1 "centers") = 1)
    (honce2 : cm.countP (fun kv => keyIs kv.1 "sessions") = 1)
    (hno : ∀ kv ∈ sm, keyIs kv.1 "available_capacity" = false) :
    (∃ c s, r.Centers[i]? = some c ∧ c.Sessions[j]? = some s ∧
      s.AvailableCapacity = "" ∧
      [s.Date, c.Name, c.BlockName, c.Pincode, s.Vaccine, s.MinAgeLimit, ""]
        ∈ buildRows r.Centers) ∧
    (∀ (members : List (String × Json)) (full : Session),
      decodeSession (.obj members) = .ok full →
      decodeSession (.obj (members.filter (fun kv => !keyIs kv.1 "available_capacity")))
        = .ok { full with AvailableCapacity := "" }) := by
  obtain ⟨m, htop, rfl⟩ := unmarshalSlots_obj env body top r hscan hdec
  constructor
  · obtain ⟨c, s, hc, hs, _, hsdec⟩ :=
      decoded_session_fresh top m cs i cm ss j sm htop hcs hi hss hj honce honce2
    have hcap : s.AvailableCapacity = "" :=
      fold_keeps_field sessionField (fun x => x.AvailableCapacity) "available_capacity"
        sessionField_other_capacity sm zeroSession s hno hsdec
    have hc2 : m.toSlotsResponse.Centers[i]? = some c.toCenter := by
      simp [SlotsResponseMem.toSlotsResponse, List.getElem?_map, hc]
    have hs2 : c.toCenter.Sessions[j]? = some s.toSession := by
      simp [CenterMem.toCenter, List.getElem?_map, hs]
    refine ⟨c.toCenter, s.toSession, hc2, hs2, hcap, ?_⟩
    have := row_mem_buildRows m.toSlotsResponse.Centers c.toCenter s.toSession
      (List.getElem?_mem hc2) (List.getElem?_mem hs2)
    have hcap2 : s.toSession.AvailableCapacity = "" := hcap
    rwa [hcap2] at this
  · intro members full hfull
    simp only [decodeSession, storeStruct] at hfull ⊢
    obtain ⟨x, hx, rfl⟩ := map_eq_ok _ _ _ hfull
    have h2 := fold_without_capacity members zeroSession x "" hx
    have hz : ({ zeroSession with AvailableCapacity := "" } : SessionMem) = zeroSession := rfl
    rw [hz] at h2
    rw [h2]
    rfl

theorem missing_capacity_is_empty_text_witness :
    sampleEnv.scan "C" = .ok (.obj [("centers", .arr [.obj sampleCenterMembers])]) ∧
    unmarshalSlots sampleEnv "C" = .ok (some sampleSlots) ∧
    lastMember [("centers", .arr [.obj sampleCenterMembers])] "centers"
      = some (.arr [.obj sampleCenterMembers]) ∧
    [Json.obj sampleCenterMembers][0]? = some (.obj sampleCenterMembers) ∧
    lastMember sampleCenterMembers "sessions"
      = some (.arr [.obj sampleSessionMembers, .obj sampleSecondSessionMembers]) ∧
    [Json.obj sampleSessionMembers, Json.obj sampleSecondSessionMembers][0]?
      = some (.obj sampleSessionMembers) ∧
    List.countP (fun kv => keyIs kv.1 "centers")
      [(("centers", .arr [.obj sampleCenterMembers]) : String × Json)] = 1 ∧
    sampleCenterMembers.countP (fun kv => keyIs kv.1 "sessions") = 1 ∧
    (∀ kv ∈ sampleSessionMembers, keyIs kv.1 "available_capacity" = false) ∧
    ∃ c s, sampleSlots.Centers[0]? = some c ∧ c.Sessions[0]? = some s ∧
      s.AvailableCapacity = "" ∧
      [s.Date, c.Name, c.BlockName, c.Pincode, s.Vaccine, s.MinAgeLimit, ""]
        ∈ buildRows sampleSlots.Centers :=
  ⟨by rfl, by rfl, by rfl, by rfl, by rfl, by rfl, by rfl, by rfl, by decide,
    (missing_capacity_is_empty_text sampleEnv "C"
      [("centers", .arr [.obj sampleCenterMembers])] sampleSlots
      [.obj sampleCenterMembers] 0 sampleCenterMembers
      [.obj sampleSessionMembers, .obj sampleSecondSessionMembers] 0 sampleSessionMembers
      (by rfl) (by rfl) (by rfl) (by rfl) (by rfl) (by rfl) (by rfl) (by rfl)
      (by decide)).1⟩

/-- C7: in a slots payload that decodes, the row `main` builds for the session
at position (i, j) carries in its Pincode, AgeLimit and AvailableCapacity
columns exactly the text of the number literals given by the `pincode` member
of the center object and the `min_age_limit` and `available_capacity` members
of the session object, whatever that text is. -/
theorem number_text_is_preserved (env : Env) (body : String)
    (top : List (String × Json)) (r : SlotsResponse)
    (cs : List Json) (i : Nat) (cm : List (String × Json))
    (ss : List Json) (j : Nat) (sm : List (String × Json))
    (hscan : env.scan body = .ok (.obj top))
    (hdec : unmarshalSlots env body = .ok (some r))
    (hcs : lastMember top "centers" = some (.arr cs)) (hi : cs[i]? = some (.obj cm))
    (hss : lastMember cm "sessions" = some (.arr ss)) (hj : ss[j]? = some (.obj sm)) :
    ∃ c s, r.Centers[i]? = some c ∧ c.Sessions[j]? = some s ∧
      [s.Date, c.Name, c.BlockName, c.Pincode, s.Vaccine, s.MinAgeLimit, s.AvailableCapacity]
        ∈ buildRows r.Centers ∧
      (∀ p, lastMember cm "pincode" = some (.num p) → c.Pincode = p) ∧
      (∀ a, lastMember sm "min_age_limit" = some (.num a) → s.MinAgeLimit = a) ∧
      (∀ q, lastMember sm "available_capacity" = some (.num q) → s.AvailableCapacity = q) := by
  obtain ⟨m, htop, rfl⟩ := unmarshalSlots_obj env body top r hscan hdec
  obtain ⟨c0, c, s0, s, hc, hs, hcdec, hsdec⟩ :=
    decoded_session_at top m cs i cm ss j sm htop hcs hi hss hj
  have hc2 : m.toSlotsResponse.Centers[i]? = some c.toCenter := by
    simp [SlotsResponseMem.toSlotsResponse, List.getElem?_map, hc]
  have hs2 : c.toCenter.Sessions[j]? = some s.toSession := by
    simp [CenterMem.toCenter, List.getElem?_map, hs]
  refine ⟨c.toCenter, s.toSession, hc2, hs2,
    row_mem_buildRows m.toSlotsResponse.Centers c.toCenter s.toSession
      (List.getElem?_mem hc2) (List.getElem?_mem hs2), ?_, ?_, ?_⟩
  · intro p hp
    obtain ⟨_, h⟩ := fold_last_member centerField (fun x => x.Pincode) storeNumber "pincode"
      centerField_sel_pincode centerField_other_pincode cm c0 c (.num p) hcdec hp
    have : c.Pincode = p := by simpa [storeNumber] using h.symm
    exact this
  · intro a ha
    obtain ⟨_, h⟩ := fold_last_member sessionField (fun x => x.MinAgeLimit) storeNumber
      "min_age_limit" sessionField_sel_age sessionField_other_age sm s0 s (.num a) hsdec ha
    have : s.MinAgeLimit = a := by simpa [storeNumber] using h.symm
    exact this
  · intro q hq
    obtain ⟨_, h⟩ := fold_last_member sessionField (fun x => x.AvailableCapacity) storeNumber
      "available_capacity" sessionField_sel_capacity sessionField_other_capacity sm s0 s
      (.num q) hsdec hq
    have : s.AvailableCapacity = q := by simpa [storeNumber] using h.symm
    exact this

theorem number_text_is_preserved_witness :
    sampleEnv.scan "C" = .ok (.obj [("centers", .arr [.obj sampleCenterMembers])]) ∧
    unmarshalSlots sampleEnv "C" = .ok (some sampleSlots) ∧
    lastMember [("centers", .arr [.obj sampleCenterMembers])] "centers"
      = some (.arr [.obj sampleCenterMembers]) ∧
    [Json.obj sampleCenterMembers][0]? = some (.obj sampleCenterMembers) ∧
    lastMember sampleCenterMembers "sessions"
      = some (.arr [.obj sampleSessionMembers, .obj sampleSecondSessionMembers]) ∧
    [Json.obj sampleSessionMembers, Json.obj sampleSecondSessionMembers][1]?
      = some (.obj sampleSecondSessionMembers) ∧
    lastMember sampleCenterMembers "pincode" = some (.num "1234567890123456789012") ∧
    lastMember sampleSecondSessionMembers "min_age_limit" = some (.num "45") ∧
    lastMember sampleSecondSessionMembers "available_capacity" = some (.num "5.0") ∧
    ∃ c s, sampleSlots.Centers[0]? = some c ∧ c.Sessions[1]? = some s ∧
      [s.Date, c.Name, c.BlockName, c.Pincode, s.Vaccine, s.MinAgeLimit, s.AvailableCapacity]
        ∈ buildRows sampleSlots.Centers ∧
      (∀ p, lastMember sampleCenterMembers "pincode" = some (.num p) → c.Pincode = p) ∧
      (∀ a, lastMember sampleSecondSessionMembers "min_age_limit" = some (.num a) →
        s.MinAgeLimit = a) ∧
      (∀ q, lastMember sampleSecondSessionMembers "available_capacity" = some (.num q) →
        s.AvailableCapacity = q) :=
  ⟨by rfl, by rfl, by rfl, by rfl, by rfl, by rfl, by rfl, by rfl, by rfl,
    number_text_is_preserved sampleEnv "C"
      [("centers", .arr [.obj sampleCenterMembers])] sampleSlots
      [.obj sampleCenterMembers] 0 sampleCenterMembers
      [.obj sampleSessionMembers, .obj sampleSecondSessionMembers] 1
      sampleSecondSessionMembers
      (by rfl) (by rfl) (by rfl) (by rfl) (by rfl) (by rfl)⟩

end Vaccination
